import Mathlib

/-!
A shallow embedding of `src/ares_getaddrinfo.c` (tommie/c-ares): the
asynchronous `getaddrinfo` state machine.

Modelling conventions:
* Machine integers are `Nat`/`Int`; ports are reduced `% 2^16` where the C
  code truncates through `htons` / `uint16_t`.
* The external collaborators (`ares_inet_pton`, the DNS channel via
  `ares_gethostbyname`, `malloc`/`strdup` success, `getprotobynumber_r`,
  `getservbyname_r`) are an oracle environment `Env`.  DNS replies and
  allocation outcomes are indexed streams consumed in program order, which
  serialises the (already serial) asynchronous continuations.
* Executions are traces of events: the real observable events are the user
  callback invocations (`Event.cb`), the release of the request context
  (`Event.free`) and `errno` writes; ghost events record step dispatch
  (`Event.step`) and host-callback deliveries (`Event.hostcb`), and
  `Event.undef` marks a null-pointer dereference (undefined behaviour in C).
* The C bitmask `ar_state` (7 named bits) is embedded as a record of
  `Bool`s; the flag bitfield `ai_flags` likewise.  Pointers to list heads
  become Lean lists, `NULL` being `[]`.
-/

namespace Ares

/- --- Constants (Linux/ares values) --- -/

def AF_UNSPEC : Nat := 0
def AF_INET : Nat := 2
def AF_INET6 : Nat := 10

def SOCK_STREAM : Int := 1
def SOCK_DGRAM : Int := 2
def SOCK_RAW : Int := 3
def SOCK_SEQPACKET : Int := 5

def IPPROTO_TCP : Int := 6
def IPPROTO_UDP : Int := 17
def IPPROTO_SCTP : Int := 132
def IPPROTO_RAW : Int := 255

def ARES_SUCCESS : Nat := 0
def ARES_EFORMERR : Nat := 2
def ARES_EBADQUERY : Nat := 7
def ARES_EBADNAME : Nat := 8
def ARES_EBADFAMILY : Nat := 9
def ARES_ENOMEM : Nat := 15
def ARES_EBADFLAGS : Nat := 18
def ARES_ENONAME : Nat := 19
def ARES_EBADHINTS : Nat := 20

def EINVAL : Nat := 22

/-- `sizeof(struct sockaddr_in)`. -/
def sizeof_sockaddr_in : Nat := 16
/-- `sizeof(struct sockaddr_in6)`. -/
def sizeof_sockaddr_in6 : Nat := 28

/-- `htonl(INADDR_ANY)` as the big-endian byte value stored in `s_addr`. -/
def INADDR_ANY_BE : Nat := 0
/-- `htonl(INADDR_LOOPBACK)` as the big-endian byte value stored in `s_addr`. -/
def INADDR_LOOPBACK_BE : Nat := 0x7F000001

/-- `in6addr_any` as a 128-bit big-endian byte value. -/
def in6addr_any : Nat := 0
/-- `in6addr_loopback` (`::1`) as a 128-bit big-endian byte value. -/
def in6addr_loopback : Nat := 1

/-- The sixteen bytes produced by
`memset 0; s6_addr16[5] = htons(0xFFFF); s6_addr32[3] = a`:
a v4-mapped IPv6 address `::ffff:a`, as a 128-bit big-endian value. -/
def v4mappedAddr (a : Nat) : Nat := 0xFFFF * 2 ^ 32 + a % 2 ^ 32

/-- `htons` applied to a C `long`: conversion to `uint16_t` reduces the value
modulo `2^16`; the byte swap itself is absorbed by storing ports as 16-bit
values. -/
def htons (v : Int) : Nat := (v % 65536).toNat

/- --- Hints flags (`ai_flags` bitfield, one Bool per ARES_AI_* bit) --- -/

structure AiFlags where
  passive : Bool := false
  canonname : Bool := false
  numerichost : Bool := false
  numericserv : Bool := false
  v4mapped : Bool := false
  all : Bool := false
  addrconfig : Bool := false
deriving Repr, DecidableEq

/-- `ARES_AI_DEFAULT = (ARES_AI_V4MAPPED | ARES_AI_ADDRCONFIG)`. -/
def ARES_AI_DEFAULT : AiFlags := { v4mapped := true, addrconfig := true }

/-- The hints record (the fields of `struct ares_addrinfo` that matter as
hints; `ai_canonname`, `ai_addr`, `ai_next` are null in hints). -/
structure Hints where
  ai_flags : AiFlags
  ai_family : Nat
  ai_socktype : Int
  ai_protocol : Int
deriving Repr, DecidableEq

/-- `DEFAULT_HINTS` from the source. -/
def DEFAULT_HINTS : Hints :=
  { ai_flags := ARES_AI_DEFAULT, ai_family := AF_UNSPEC,
    ai_socktype := 0, ai_protocol := 0 }

/- --- Result nodes --- -/

/-- The embedded socket address of a result node (`sockaddr_in` or
`sockaddr_in6`): explicit `sa_family` field, port, and the address bytes as
a big-endian numeric value. -/
inductive SockAddr
  | sin (family : Nat) (port : Nat) (addr : Nat)
  | sin6 (family : Nat) (port : Nat) (addr : Nat)
deriving Repr, DecidableEq

/-- The port stored in the embedded sockaddr (`sin_port` and `sin6_port`
live at the same offset, so the C port stores are family-independent). -/
def SockAddr.port : SockAddr → Nat
  | .sin _ p _ => p
  | .sin6 _ p _ => p

/-- Overwrite the port field, as the casts in the service steps do. -/
def SockAddr.setPort : SockAddr → Nat → SockAddr
  | .sin f _ a, p => .sin f p a
  | .sin6 f _ a, p => .sin6 f p a

/-- The `sa_family` stored inside the sockaddr. -/
def SockAddr.family : SockAddr → Nat
  | .sin f _ _ => f
  | .sin6 f _ _ => f

/-- One `struct ares_addrinfo` result node together with its embedded
sockaddr (a single allocation in C). -/
structure Node where
  ai_flags : AiFlags
  ai_family : Nat
  ai_socktype : Int
  ai_protocol : Int
  ai_addrlen : Nat
  ai_canonname : Option String
  ai_addr : SockAddr
deriving Repr, DecidableEq

/-- The port of a node's embedded sockaddr. -/
def Node.port (n : Node) : Nat := n.ai_addr.port

/-- `create_addrinfo_inet`: copy the template, overwrite family/addrlen,
embed a zeroed `sockaddr_in` with the given address and port 0.
(The surrounding malloc's success is decided by the caller's allocation
oracle.) -/
def create_addrinfo_inet (tmpl : Hints) (addr : Nat) : Node :=
  { ai_flags := tmpl.ai_flags, ai_family := AF_INET,
    ai_socktype := tmpl.ai_socktype, ai_protocol := tmpl.ai_protocol,
    ai_addrlen := sizeof_sockaddr_in, ai_canonname := none,
    ai_addr := .sin AF_INET 0 addr }

/-- `create_addrinfo_inet6`. -/
def create_addrinfo_inet6 (tmpl : Hints) (addr : Nat) : Node :=
  { ai_flags := tmpl.ai_flags, ai_family := AF_INET6,
    ai_socktype := tmpl.ai_socktype, ai_protocol := tmpl.ai_protocol,
    ai_addrlen := sizeof_sockaddr_in6, ai_canonname := none,
    ai_addr := .sin6 AF_INET6 0 addr }

/-- `create_addrinfo_v4mapped`: an `AF_INET6` node carrying `::ffff:addr`. -/
def create_addrinfo_v4mapped (tmpl : Hints) (addr : Nat) : Node :=
  { ai_flags := tmpl.ai_flags, ai_family := AF_INET6,
    ai_socktype := tmpl.ai_socktype, ai_protocol := tmpl.ai_protocol,
    ai_addrlen := sizeof_sockaddr_in6, ai_canonname := none,
    ai_addr := .sin6 AF_INET6 0 (v4mappedAddr addr) }

/- --- Request state --- -/

/-- The `ar_state` bitmask, one Bool per `ARES_GAICB_*` bit. -/
structure StateBits where
  serv : Bool := false
  numeric_serv : Bool := false
  host_inet : Bool := false
  host_inet6 : Bool := false
  numeric_host_inet : Bool := false
  numeric_host_inet6 : Bool := false
  canonical : Bool := false
deriving Repr, DecidableEq

/-- `ARE_ANY_BITS_SET(ar_state, ARES_GAICB_ANY_HOST)`. -/
def StateBits.anyHost (s : StateBits) : Bool :=
  s.host_inet || s.host_inet6 || s.numeric_host_inet || s.numeric_host_inet6

/-- `ar_state == 0`. -/
def StateBits.isEmpty (s : StateBits) : Bool :=
  !s.serv && !s.numeric_serv && !s.host_inet && !s.host_inet6 &&
  !s.numeric_host_inet && !s.numeric_host_inet6 && !s.canonical

/-- Number of set bits (the termination measure of the dispatch loop). -/
def StateBits.weight (s : StateBits) : Nat :=
  s.serv.toNat + s.numeric_serv.toNat + s.host_inet.toNat +
  s.host_inet6.toNat + s.numeric_host_inet.toNat +
  s.numeric_host_inet6.toNat + s.canonical.toNat

/-- `struct ares_gaicb` (the channel pointer is borrowed and opaque, so it
is not part of the embedded state). -/
structure Gaicb where
  ar_node : Option String
  ar_service : Option String
  ar_hints : Hints
  ar_result : List Node
  ar_state : StateBits
  ar_timeouts : Nat
deriving Repr, DecidableEq

/- --- Environment (external collaborators) --- -/

/-- A `struct hostent` as delivered to `host_callback`.  Each entry of
`h_addr_list` is the raw address bytes as a big-endian numeric value,
reinterpreted per `h_addrtype`. -/
structure Hostent where
  h_name : Option String
  h_addrtype : Nat
  h_addr_list : List Nat
deriving Repr, DecidableEq

/-- One completion of an `ares_gethostbyname` query. -/
structure HostReply where
  status : Nat
  timeouts : Nat
  hostent : Hostent
deriving Repr, DecidableEq

/-- The oracle environment: numeric parsers, the allocation outcome stream
(indexed by allocation order; `true` = success), the DNS reply stream
(indexed by query order), and the protocols/services database. -/
structure Env where
  pton4 : String → Option Nat
  pton6 : String → Option Nat
  alloc : Nat → Bool
  dns : Nat → HostReply
  protoByNumber : Int → Option String
  servByName : String → String → Option Nat

/- --- Events --- -/

/-- Names for the step functions dispatched by `next_state` (ghost data). -/
inductive StepName
  | pton6 | pton4 | resolve6 | resolve4 | canonical | serv_strtol | serv_resolve
deriving Repr, DecidableEq

/-- Trace events.  `cb` is the user callback (a `[]` result is the C `NULL`
pointer); `free` is `free_gaicb`; `errno` records an `errno` store; `step`
and `hostcb` are ghost instrumentation; `undef` marks a null dereference;
`fuel` marks interpreter fuel exhaustion (proved unreachable). -/
inductive Event
  | cb (status : Nat) (timeouts : Nat) (result : List Node)
  | free
  | errno (e : Nat)
  | step (s : StepName) (st : StateBits)
  | hostcb (timeouts : Nat)
  | undef
  | fuel
deriving Repr, DecidableEq

/-- The outcome of one step function: terminate the request with the given
events, or return control to `next_state` with updated request state and
oracle cursors. -/
inductive StepOut
  | halt (tr : List Event)
  | next (cb : Gaicb) (aIdx dIdx : Nat)
deriving Repr, DecidableEq

/-- The step outcome dereferences no null pointer. -/
def StepOut.wellDefined : StepOut → Prop
  | .halt tr => Event.undef ∉ tr
  | .next _ _ _ => True

/- --- strtol (C library, base 10) --- -/

def LONG_MAX : Int := 2 ^ 63 - 1
def LONG_MIN : Int := -(2 ^ 63)

/-- `isspace` for the characters C's `strtol` skips. -/
def isSpaceC (c : Char) : Bool :=
  c = ' ' || c = '\t' || c = '\n' || c = '\x0b' || c = '\x0c' || c = '\r'

/-- C `strtol(s, &endp, 10)`: returns the value (clamped to the `long`
range) and the number of characters consumed (`endp - s`; zero — the
original pointer — when the subject sequence is empty). -/
def strtol10 (s : String) : Int × Nat :=
  let cs := s.toList
  let ws := cs.takeWhile isSpaceC
  let rest := cs.drop ws.length
  let signLen : Nat := match rest with
    | '-' :: _ => 1
    | '+' :: _ => 1
    | _ => 0
  let neg : Bool := match rest with
    | '-' :: _ => true
    | _ => false
  let ds := (rest.drop signLen).takeWhile Char.isDigit
  if ds.isEmpty then (0, 0)
  else
    let mag : Nat := ds.foldl (fun acc c => acc * 10 + (c.toNat - 48)) 0
    let v : Int := if neg then -(mag : Int) else (mag : Int)
    let clamped := if v > LONG_MAX then LONG_MAX
      else if v < LONG_MIN then LONG_MIN else v
    (clamped, ws.length + signLen + ds.length)

/- --- Protocol defaulting --- -/

/-- `get_default_socktype`. -/
def get_default_socktype (family : Nat) : Int :=
  if family = AF_INET ∨ family = AF_INET6 then SOCK_STREAM else -1

/-- `get_default_protocol`. -/
def get_default_protocol (family : Nat) (socktype : Int) : Int :=
  if family = AF_INET ∨ family = AF_INET6 then
    if socktype = SOCK_STREAM then IPPROTO_TCP
    else if socktype = SOCK_DGRAM then IPPROTO_UDP
    else if socktype = SOCK_RAW then IPPROTO_RAW
    else if socktype = SOCK_SEQPACKET then IPPROTO_SCTP
    else -1
  else -1

/-- The second `if` block of `setup_protocol`'s loop body: default
`ai_protocol` when zero, failing (`none`) when no default exists. -/
def setup_protocol_proto (n : Node) : Option Node :=
  if n.ai_protocol = 0 then
    if get_default_protocol n.ai_family n.ai_socktype < 0 then none
    else some { n with ai_protocol := get_default_protocol n.ai_family n.ai_socktype }
  else some n

/-- The body of `setup_protocol` for one node: default `ai_socktype` and
`ai_protocol` when zero, failing (`none`) when a freshly defaulted value is
negative. -/
def setup_protocol_node (n : Node) : Option Node :=
  if n.ai_socktype = 0 then
    if get_default_socktype n.ai_family < 0 then none
    else setup_protocol_proto { n with ai_socktype := get_default_socktype n.ai_family }
  else setup_protocol_proto n

/-- `setup_protocol` over the whole chain. -/
def setup_protocol : List Node → Option (List Node)
  | [] => some []
  | n :: rest =>
    match setup_protocol_node n with
    | none => none
    | some n' =>
      match setup_protocol rest with
      | none => none
      | some rest' => some (n' :: rest')

/-- The port-stamping loop shared by the two service steps: write `port`
into each node's sockaddr, failing (`none` = the `EBADFAMILY` default
branch) on a node whose family is neither `AF_INET` nor `AF_INET6`. -/
def stampPorts (port : Nat) : List Node → Option (List Node)
  | [] => some []
  | n :: rest =>
    if n.ai_family = AF_INET ∨ n.ai_family = AF_INET6 then
      match stampPorts port rest with
      | none => none
      | some rest' => some ({ n with ai_addr := n.ai_addr.setPort port } :: rest')
    else none

/- --- Step functions --- -/

/-- The common tail of `try_pton_inet` / `try_pton_inet6` after the new
node `r` has been allocated: prepend it to `rest` (the previous chain),
attach `strdup(ar_node)` as canonical name when `AI_CANONNAME` is set
(`strdup(NULL)` being undefined), clear both `HOST_INET` and `HOST_INET6`,
and return to `next_state`. -/
def pton_finish (env : Env) (cb : Gaicb) (r : Node) (rest : List Node)
    (a d : Nat) : StepOut :=
  let cleared : StateBits :=
    { cb.ar_state with host_inet := false, host_inet6 := false }
  if cb.ar_hints.ai_flags.canonname then
    match cb.ar_node with
    | none => .halt [.undef]
    | some s =>
      if env.alloc a then
        .next { cb with
                ar_result := { r with ai_canonname := some s } :: rest,
                ar_state := cleared } (a + 1) d
      else .halt [.cb ARES_ENOMEM 0 [], .free]
  else .next { cb with ar_result := r :: rest, ar_state := cleared } a d

/-- The tail of `try_pton_inet` once an address is in hand: allocate the
node (v4-mapped when the hints family is `AF_INET6`, plain `AF_INET`
otherwise), failing with `ENOMEM`. -/
def pton_inet_found (env : Env) (cb : Gaicb) (addr : Nat) (a d : Nat) :
    StepOut :=
  if env.alloc a then
    pton_finish env cb
      (if cb.ar_hints.ai_family = AF_INET6 then
        create_addrinfo_v4mapped cb.ar_hints addr
       else create_addrinfo_inet cb.ar_hints addr) cb.ar_result (a + 1) d
  else .halt [.cb ARES_ENOMEM 0 [], .free]

/-- `try_pton_inet`: parse (or default) an IPv4 literal; on a parse failure
return to `next_state` unchanged. -/
def try_pton_inet (env : Env) (cb : Gaicb) (a d : Nat) : StepOut :=
  match cb.ar_node with
  | none =>
    pton_inet_found env cb
      (if cb.ar_hints.ai_flags.passive then INADDR_ANY_BE
       else INADDR_LOOPBACK_BE) a d
  | some s =>
    match env.pton4 s with
    | none => .next cb a d
    | some addr => pton_inet_found env cb addr a d

/-- The tail of `try_pton_inet6` once an address is in hand. -/
def pton_inet6_found (env : Env) (cb : Gaicb) (addr : Nat) (a d : Nat) :
    StepOut :=
  if env.alloc a then
    pton_finish env cb (create_addrinfo_inet6 cb.ar_hints addr)
      cb.ar_result (a + 1) d
  else .halt [.cb ARES_ENOMEM 0 [], .free]

/-- `try_pton_inet6`. -/
def try_pton_inet6 (env : Env) (cb : Gaicb) (a d : Nat) : StepOut :=
  match cb.ar_node with
  | none =>
    pton_inet6_found env cb
      (if cb.ar_hints.ai_flags.passive then in6addr_any
       else in6addr_loopback) a d
  | some s =>
    match env.pton6 s with
    | none => .next cb a d
    | some addr => pton_inet6_found env cb addr a d

/-- The `AF_INET` prepend loop of `host_callback`: one node per address
(v4-mapped when the hints family is `AF_INET6`); `none` on an allocation
failure. -/
def addInetNodes (env : Env) (hints : Hints) :
    List Nat → List Node → Nat → Option (List Node × Nat)
  | [], acc, a => some (acc, a)
  | addr :: rest, acc, a =>
    if env.alloc a then
      let n := if hints.ai_family = AF_INET6 then
          create_addrinfo_v4mapped hints addr
        else create_addrinfo_inet hints addr
      addInetNodes env hints rest (n :: acc) (a + 1)
    else none

/-- The `AF_INET6` prepend loop of `host_callback`. -/
def addInet6Nodes (env : Env) (hints : Hints) :
    List Nat → List Node → Nat → Option (List Node × Nat)
  | [], acc, a => some (acc, a)
  | addr :: rest, acc, a =>
    if env.alloc a then
      addInet6Nodes env hints rest (create_addrinfo_inet6 hints addr :: acc)
        (a + 1)
    else none

/-- The canonical-name copy at the end of `host_callback`: when `CANONICAL`
is set and the hostent carries a name, write `strdup(h_name)` through
`cb->ar_result` — a null dereference when the chain is empty. -/
def host_canonical (env : Env) (he : Hostent) (cb : Gaicb) (a d : Nat) :
    StepOut :=
  if cb.ar_state.canonical && he.h_name.isSome then
    match cb.ar_result with
    | [] => .halt [.undef]
    | r :: rest =>
      if env.alloc a then
        .next { cb with ar_result := { r with ai_canonname := he.h_name } :: rest }
          (a + 1) d
      else .halt [.cb ARES_ENOMEM cb.ar_timeouts [], .free]
  else .next cb a d

/-- The `AF_INET` case of `host_callback`'s switch: prepend one node per
address, clear `HOST_INET` (the returned family), then the canonical-name
copy. -/
def host_callback_inet (env : Env) (he : Hostent) (cb : Gaicb) (a d : Nat) :
    StepOut :=
  match addInetNodes env cb.ar_hints he.h_addr_list cb.ar_result a with
  | none => .halt [.cb ARES_ENOMEM cb.ar_timeouts [], .free]
  | some (res, a') =>
    host_canonical env he
      { cb with ar_result := res,
                ar_state := { cb.ar_state with host_inet := false } } a' d

/-- The `AF_INET6` case of `host_callback`'s switch: prepend the nodes,
clear `HOST_INET6`; additionally clear `HOST_INET` when the hints family is
`AF_INET6`, the address list is non-empty (`*hostent->h_addr_list`) and
`AI_ALL` is unset; then the canonical-name copy. -/
def host_callback_inet6 (env : Env) (he : Hostent) (cb : Gaicb) (a d : Nat) :
    StepOut :=
  match addInet6Nodes env cb.ar_hints he.h_addr_list cb.ar_result a with
  | none => .halt [.cb ARES_ENOMEM cb.ar_timeouts [], .free]
  | some (res, a') =>
    host_canonical env he
      { cb with ar_result := res,
                ar_state :=
                  if cb.ar_hints.ai_family = AF_INET6 ∧ he.h_addr_list ≠ [] ∧
                     cb.ar_hints.ai_flags.all = false
                  then { cb.ar_state with host_inet6 := false,
                                          host_inet := false }
                  else { cb.ar_state with host_inet6 := false } } a' d

/-- `host_callback`, applied to the reply delivered by the channel. -/
def host_callback (env : Env) (reply : HostReply) (cb0 : Gaicb) (a d : Nat) :
    StepOut :=
  let cb := { cb0 with ar_timeouts := cb0.ar_timeouts + reply.timeouts }
  if reply.status ≠ ARES_SUCCESS then
    if cb.ar_state.anyHost then .next cb a d
    else .halt [.cb reply.status cb.ar_timeouts [], .free]
  else
    if reply.hostent.h_addrtype = AF_INET then
      host_callback_inet env reply.hostent cb a d
    else if reply.hostent.h_addrtype = AF_INET6 then
      host_callback_inet6 env reply.hostent cb a d
    else
      host_canonical env reply.hostent cb a d

/-- `find_canonical`: keep the head's canonical name if present, else lift
the first trailing one onto the head, else fail with `EBADNAME`. -/
def find_canonical (env : Env) (cb : Gaicb) (a d : Nat) : StepOut :=
  match cb.ar_result with
  | r :: rest =>
    if r.ai_canonname.isSome then .next cb a d
    else
      match rest.find? (fun ai => ai.ai_canonname.isSome) with
      | some ai =>
        if env.alloc a then
          .next { cb with
                  ar_result := { r with ai_canonname := ai.ai_canonname } :: rest }
            (a + 1) d
        else .halt [.cb ARES_ENOMEM cb.ar_timeouts [], .free]
      | none => .halt [.cb ARES_EBADNAME cb.ar_timeouts [], .free]
  | [] => .halt [.cb ARES_EBADNAME cb.ar_timeouts [], .free]

/-- `try_serv_strtol`: parse the service as a base-10 long; when the whole
string was consumed, default socktype/protocol over the chain and stamp
`htons(val)` into every node, clearing `SERV`. -/
def try_serv_strtol (env : Env) (cb : Gaicb) (a d : Nat) : StepOut :=
  match cb.ar_service with
  | none => .halt [.undef]
  | some s =>
    if (strtol10 s).2 ≠ s.length then .next cb a d
    else
      match setup_protocol cb.ar_result with
      | none => .halt [.cb ARES_EBADFAMILY cb.ar_timeouts [], .free]
      | some ns =>
        match stampPorts (htons (strtol10 s).1) ns with
        | none => .halt [.cb ARES_EBADFAMILY cb.ar_timeouts [], .free]
        | some ns' =>
          .next { cb with ar_result := ns',
                          ar_state := { cb.ar_state with serv := false } } a d

/-- The per-node lookup/stamp loop of `resolve_serv`: protocol-by-number
then service-by-name, writing the returned port (already network order,
truncated to `in_port_t`) into the node. -/
def serv_stamp (env : Env) (service : String) : List Node → Except Nat (List Node)
  | [] => .ok []
  | n :: rest =>
    match env.protoByNumber n.ai_protocol with
    | none => .error ARES_EBADHINTS
    | some pname =>
      match env.servByName service pname with
      | none => .error ARES_ENONAME
      | some sp =>
        if n.ai_family = AF_INET ∨ n.ai_family = AF_INET6 then
          match serv_stamp env service rest with
          | .error e => .error e
          | .ok rest' =>
            .ok ({ n with ai_addr := n.ai_addr.setPort (sp % 65536) } :: rest')
        else .error ARES_EBADFAMILY

/-- `resolve_serv`.  (`getservbyname_r(NULL, ...)` — service absent with a
non-empty chain — is a null dereference; with an empty chain the loop body
never runs.) -/
def resolve_serv (env : Env) (cb : Gaicb) (a d : Nat) : StepOut :=
  match setup_protocol cb.ar_result with
  | none => .halt [.cb ARES_EBADFAMILY cb.ar_timeouts [], .free]
  | some ns =>
    match ns with
    | [] => .next { cb with ar_result := ns } a d
    | _ :: _ =>
      match cb.ar_service with
      | none => .halt [.undef]
      | some s =>
        match serv_stamp env s ns with
        | .error e => .halt [.cb e cb.ar_timeouts [], .free]
        | .ok ns' => .next { cb with ar_result := ns' } a d

/- --- The state machine --- -/

/-- Append a step's outcome to its ghost events: a halting step contributes
its terminal events, a continuing step re-enters the dispatcher `rec`. -/
def contStep (rec : Gaicb → Nat → Nat → List Event) (gs : List Event)
    (out : StepOut) : List Event :=
  gs ++ match out with
  | .halt tr => tr
  | .next cb2 a2 d2 => rec cb2 a2 d2

/-- `next_state`: evaluate the bitmask in fixed priority, clear the bit of
the dispatched step, run it, and re-enter on its continuation.  `fuel`
bounds the recursion (the bit weight strictly decreases, so `FUEL = 8`
never runs out; `Event.fuel` marks the impossible exhaustion). -/
def nextState (env : Env) : Nat → Gaicb → Nat → Nat → List Event
  | 0, _, _, _ => [.fuel]
  | fuel + 1, cb, a, d =>
    if cb.ar_state.numeric_host_inet6 then
      let cb' := { cb with ar_state := { cb.ar_state with numeric_host_inet6 := false } }
      contStep (nextState env fuel) [.step .pton6 cb'.ar_state]
        (try_pton_inet6 env cb' a d)
    else if cb.ar_state.numeric_host_inet then
      let cb' := { cb with ar_state := { cb.ar_state with numeric_host_inet := false } }
      contStep (nextState env fuel) [.step .pton4 cb'.ar_state]
        (try_pton_inet env cb' a d)
    else if cb.ar_state.anyHost && cb.ar_hints.ai_flags.numerichost then
      [.cb ARES_ENONAME 0 [], .free]
    else if cb.ar_state.host_inet6 then
      let cb' := { cb with ar_state := { cb.ar_state with host_inet6 := false } }
      contStep (nextState env fuel)
        [.step .resolve6 cb'.ar_state, .hostcb (env.dns d).timeouts]
        (host_callback env (env.dns d) cb' a (d + 1))
    else if cb.ar_state.host_inet then
      let cb' := { cb with ar_state := { cb.ar_state with host_inet := false } }
      contStep (nextState env fuel)
        [.step .resolve4 cb'.ar_state, .hostcb (env.dns d).timeouts]
        (host_callback env (env.dns d) cb' a (d + 1))
    else if cb.ar_state.canonical then
      let cb' := { cb with ar_state := { cb.ar_state with canonical := false } }
      contStep (nextState env fuel) [.step .canonical cb'.ar_state]
        (find_canonical env cb' a d)
    else if cb.ar_state.numeric_serv then
      let cb' := { cb with ar_state := { cb.ar_state with numeric_serv := false } }
      contStep (nextState env fuel) [.step .serv_strtol cb'.ar_state]
        (try_serv_strtol env cb' a d)
    else if cb.ar_state.serv && cb.ar_hints.ai_flags.numericserv then
      [.cb ARES_ENONAME 0 [], .free]
    else if cb.ar_state.serv then
      let cb' := { cb with ar_state := { cb.ar_state with serv := false } }
      contStep (nextState env fuel) [.step .serv_resolve cb'.ar_state]
        (resolve_serv env cb' a d)
    else if cb.ar_state.isEmpty then
      [.cb ARES_SUCCESS cb.ar_timeouts cb.ar_result, .free]
    else
      [.cb ARES_EFORMERR 0 [], .free]

/-- Interpreter fuel; the bitmask has 7 bits, so 8 suffices. -/
def FUEL : Nat := 8

/-- The initial bitmask derived in `start`. -/
def initState (node service : Option String) (hints : Hints) : StateBits :=
  { serv := service.isSome
    numeric_serv := service.isSome
    host_inet := node.isSome &&
      (hints.ai_family == AF_UNSPEC || hints.ai_family == AF_INET ||
       (hints.ai_family == AF_INET6 && hints.ai_flags.v4mapped))
    host_inet6 := node.isSome &&
      (hints.ai_family == AF_UNSPEC || hints.ai_family == AF_INET6)
    numeric_host_inet :=
      hints.ai_family == AF_UNSPEC || hints.ai_family == AF_INET ||
      (hints.ai_family == AF_INET6 && hints.ai_flags.v4mapped)
    numeric_host_inet6 :=
      hints.ai_family == AF_UNSPEC || hints.ai_family == AF_INET6
    canonical := hints.ai_flags.canonname }

/-- Did one of the `strdup` calls in `start` fail?  The node copy consumes
allocation index 1 when the node is present; the service copy consumes the
next index.  (`strdup` of an absent string is not attempted.) -/
def startStrdupFails (env : Env) (node service : Option String) : Bool :=
  match node, service with
  | some _, some _ => !env.alloc 1 || !env.alloc 2
  | some _, none => !env.alloc 1
  | none, some _ => !env.alloc 1
  | none, none => false

/-- The allocation cursor after `start`'s own allocations. -/
def startAllocCount : Option String → Option String → Nat
  | some _, some _ => 3
  | none, none => 1
  | _, _ => 2

/-- `start`: allocate the request (allocation index 0), copy the node and
service strings, and on success derive the initial bitmask and enter
`next_state`.  On a string copy failure the source calls `free_gaicb`
*before* the callback. -/
def start (env : Env) (node service : Option String) (hints : Hints) :
    List Event :=
  if env.alloc 0 then
    if startStrdupFails env node service then
      [.free, .cb ARES_ENOMEM 0 []]
    else
      nextState env FUEL
        { ar_node := node, ar_service := service, ar_hints := hints,
          ar_result := [], ar_state := initState node service hints,
          ar_timeouts := 0 } (startAllocCount node service) 0
  else [.cb ARES_ENOMEM 0 []]

/-- `ares_getaddrinfo`: hints defaulting, the entry validations in source
order, then `start`.  The channel is opaque; only its nullness matters. -/
def ares_getaddrinfo (env : Env) (channelNull : Bool)
    (node service : Option String) (hintsOpt : Option Hints) : List Event :=
  let hints := hintsOpt.getD DEFAULT_HINTS
  if channelNull then [.errno EINVAL, .cb ARES_EBADQUERY 0 []]
  else if node.isNone && service.isNone then [.cb ARES_ENONAME 0 []]
  else if hints.ai_flags.canonname && node.isNone then
    [.cb ARES_EBADFLAGS 0 []]
  else if hints.ai_flags.all && !hints.ai_flags.v4mapped then
    [.cb ARES_EBADFLAGS 0 []]
  else if hints.ai_family == AF_UNSPEC || hints.ai_family == AF_INET ||
          hints.ai_family == AF_INET6 then
    start env node service hints
  else [.cb ARES_EBADFAMILY 0 []]

/- --- Trace observations --- -/

/-- Is this event a user-callback invocation? -/
def Event.isCb : Event → Bool
  | .cb _ _ _ => true
  | _ => false

/-- Is this event the release of the request context? -/
def Event.isFree : Event → Bool
  | .free => true
  | _ => false

/-- Ghost instrumentation events (step dispatch, host-callback delivery). -/
def Event.isGhost : Event → Bool
  | .step _ _ => true
  | .hostcb _ => true
  | _ => false

/-- Number of user-callback invocations in a trace. -/
def cbCount (tr : List Event) : Nat := (tr.filter Event.isCb).length

/-- Number of request-context releases in a trace. -/
def freeCount (tr : List Event) : Nat := (tr.filter Event.isFree).length

/-- The trace contains no undefined behaviour. -/
def noUndef : List Event → Bool
  | [] => true
  | .undef :: _ => false
  | _ :: tl => noUndef tl

/-- Scanning left to right, no release happens before the first callback. -/
def noFreeBeforeCb : List Event → Bool
  | [] => true
  | .free :: _ => false
  | .cb _ _ _ :: _ => true
  | _ :: tl => noFreeBeforeCb tl

/-- Sum of the `timeouts` values delivered by host-callback invocations. -/
def sumHostTimeouts : List Event → Nat
  | [] => 0
  | .hostcb t :: tl => t + sumHostTimeouts tl
  | _ :: tl => sumHostTimeouts tl

/-- The `timeouts` argument of the first (terminal) user callback. -/
def firstCbTimeouts : List Event → Option Nat
  | [] => none
  | .cb _ t _ :: _ => some t
  | _ :: tl => firstCbTimeouts tl

/-- The two possible terminal event sequences of a step or of the
dispatcher: a callback immediately followed by the release, or the
undefined-behaviour marker. -/
def Terminal (tr : List Event) : Prop :=
  (∃ s t r, tr = [Event.cb s t r, Event.free]) ∨ tr = [Event.undef]

/-- The specification every step function obeys, relative to the request
state `cbIn` it was entered with: a halting step emits a terminal sequence
whose callback reports either the accumulated timeouts or the literal 0,
and a continuing step never increases the bit weight, never touches the
timeouts accumulator, and preserves the request arguments. -/
def StepSpec (cbIn : Gaicb) : StepOut → Prop
  | .halt tr => Terminal tr ∧
      ∀ s t r, tr = [Event.cb s t r, Event.free] →
        t = cbIn.ar_timeouts ∨ t = 0
  | .next cb2 _ _ =>
      cb2.ar_state.weight ≤ cbIn.ar_state.weight ∧
      cb2.ar_timeouts = cbIn.ar_timeouts ∧
      cb2.ar_node = cbIn.ar_node ∧
      cb2.ar_service = cbIn.ar_service ∧
      cb2.ar_hints = cbIn.ar_hints

/- --- Concrete environments for witnesses and counterexamples --- -/

/-- A concrete environment with all external calls benign, used by the
witness theorems. -/
def envW : Env :=
  { pton4 := fun _ => none, pton6 := fun _ => none,
    alloc := fun _ => true,
    dns := fun _ => { status := 0, timeouts := 0,
                      hostent := { h_name := none, h_addrtype := 0,
                                   h_addr_list := [] } },
    protoByNumber := fun _ => none, servByName := fun _ _ => none }

/-- A concrete request at the numeric-service step: one `INET` node in the
chain, service pending. -/
def cbW8 : Gaicb :=
  { ar_node := some "n", ar_service := some "80", ar_hints := DEFAULT_HINTS,
    ar_result := [create_addrinfo_inet DEFAULT_HINTS 5],
    ar_state := { serv := true }, ar_timeouts := 0 }

/-- `cbW8`'s node after defaulting and stamping port 80. -/
def nodeW8 : Node :=
  { create_addrinfo_inet DEFAULT_HINTS 5 with
    ai_socktype := SOCK_STREAM, ai_protocol := IPPROTO_TCP,
    ai_addr := .sin AF_INET 80 5 }

/-- Hints asking for `INET6` with `AI_V4MAPPED` (and without `AI_ALL`). -/
def hintsV6Mapped : Hints :=
  { ai_flags := { v4mapped := true }, ai_family := AF_INET6,
    ai_socktype := 0, ai_protocol := 0 }

/-- Hints asking for `INET` with default flags. -/
def hintsInet : Hints :=
  { ai_flags := {}, ai_family := AF_INET, ai_socktype := 0, ai_protocol := 0 }

/-- An `AF_INET6` SUCCESS reply carrying an empty address list. -/
def replyC4 : HostReply :=
  { status := ARES_SUCCESS, timeouts := 0,
    hostent := { h_name := none, h_addrtype := AF_INET6, h_addr_list := [] } }

/-- A request at the `host_callback` for the `INET6` query: the dispatcher
has cleared `HOST_INET6`; `HOST_INET` (set via `AI_V4MAPPED`) is pending. -/
def cbC4 : Gaicb :=
  { ar_node := some "x", ar_service := none, ar_hints := hintsV6Mapped,
    ar_result := [], ar_state := { host_inet := true }, ar_timeouts := 0 }

/-- Environment where the node parses as the IPv4 literal `1.2.3.4`. -/
def envC5 : Env :=
  { envW with pton4 := fun s => if s = "1.2.3.4" then some 0x01020304 else none }

/-- A request at the `try_pton_inet` step (numeric bits already cleared by
the dispatcher), hints family `INET6` with `AI_V4MAPPED`. -/
def cbC5 : Gaicb :=
  { ar_node := some "1.2.3.4", ar_service := none, ar_hints := hintsV6Mapped,
    ar_result := [], ar_state := { host_inet := true, host_inet6 := true },
    ar_timeouts := 0 }

/-- The request `cbC5` after the v4-mapped literal has been prepended. -/
def cbC5out : Gaicb :=
  { cbC5 with
    ar_result := [create_addrinfo_v4mapped hintsV6Mapped 0x01020304],
    ar_state := { cbC5.ar_state with
                  host_inet := false, host_inet6 := false } }

/-- Environment whose DNS always succeeds with a named hostent carrying an
empty address list. -/
def envC10 : Env :=
  { envW with
    dns := fun _ => { status := ARES_SUCCESS, timeouts := 0,
                      hostent := { h_name := some "x.example",
                                   h_addrtype := AF_INET, h_addr_list := [] } } }

/-- Hints with `AI_CANONNAME`, family `INET`. -/
def hintsC10 : Hints :=
  { ai_flags := { canonname := true }, ai_family := AF_INET,
    ai_socktype := 0, ai_protocol := 0 }

/-- Environment where the request context allocates but the node string
copy (allocation index 1) fails. -/
def envC1 : Env := { envW with alloc := fun i => i ≠ 1 }

/-- Environment whose DNS always succeeds with an empty address list. -/
def envC2 : Env :=
  { envW with
    dns := fun _ => { status := ARES_SUCCESS, timeouts := 0,
                      hostent := { h_name := none, h_addrtype := AF_INET,
                                   h_addr_list := [] } } }

/-- Environment whose DNS succeeds with 5 timeouts and one address. -/
def envC3 : Env :=
  { envW with
    dns := fun _ => { status := ARES_SUCCESS, timeouts := 5,
                      hostent := { h_name := none, h_addrtype := AF_INET,
                                   h_addr_list := [INADDR_LOOPBACK_BE] } } }

/-- Hints with `AI_NUMERICSERV`, family `INET`. -/
def hintsNumServ : Hints :=
  { ai_flags := { numericserv := true }, ai_family := AF_INET,
    ai_socktype := 0, ai_protocol := 0 }

/-- Every successful DNS completion carries a hostent of a recognized
family (`AF_INET` or `AF_INET6`) with a non-empty address list.  (This is
the hypothesis under which the SUCCESS callback can never pass a null
result; the source itself accepts empty successful replies.) -/
def GoodDns (env : Env) : Prop :=
  ∀ i, (env.dns i).status = ARES_SUCCESS →
    ((env.dns i).hostent.h_addrtype = AF_INET ∨
     (env.dns i).hostent.h_addrtype = AF_INET6) ∧
    (env.dns i).hostent.h_addr_list ≠ []

/-- The invariant behind C2: while the result chain is still empty, host
work is still pending (some host bit is set), and — when a node string is
present — each still-set numeric-host bit is backed by the corresponding
resolving-host bit, so a parse failure still leaves a query to run. -/
def ResultPending (cb : Gaicb) : Prop :=
  cb.ar_result = [] →
    cb.ar_state.anyHost = true ∧
    (cb.ar_node = none ∨
     ((cb.ar_state.numeric_host_inet = true → cb.ar_state.host_inet = true) ∧
      (cb.ar_state.numeric_host_inet6 = true →
        cb.ar_state.host_inet6 = true)))

/- --- Basic lemmas about the service helpers --- -/

theorem stampPorts_spec (port : Nat) :
    ∀ l l', stampPorts port l = some l' →
      (∀ n ∈ l', n.port = port) ∧ l'.length = l.length := by
  intro l
  induction l with
  | nil => intro l' h; simp [stampPorts] at h; subst h; simp
  | cons n rest ih =>
    intro l' h
    simp only [stampPorts] at h
    split at h
    · cases hr : stampPorts port rest with
      | none => rw [hr] at h; exact absurd h (by simp)
      | some rest' =>
        rw [hr] at h
        simp only [Option.some.injEq] at h
        subst h
        obtain ⟨h1, h2⟩ := ih rest' hr
        refine ⟨?_, by simpa using h2⟩
        intro m hm
        rcases List.mem_cons.mp hm with h | h
        · subst h
          cases n.ai_addr <;> simp [Node.port, SockAddr.setPort, SockAddr.port]
        · exact h1 m h
    · exact absurd h (by simp)

theorem stampPorts_total (port : Nat) :
    ∀ l, (∀ n ∈ l, n.ai_family = AF_INET ∨ n.ai_family = AF_INET6) →
      ∃ l', stampPorts port l = some l' := by
  intro l
  induction l with
  | nil => intro _; exact ⟨[], rfl⟩
  | cons n rest ih =>
    intro hf
    obtain ⟨rest', hr⟩ := ih (fun m hm => hf m (List.mem_cons_of_mem _ hm))
    refine ⟨{ n with ai_addr := n.ai_addr.setPort port } :: rest', ?_⟩
    simp only [stampPorts]
    rw [if_pos (hf n (List.mem_cons_self _ _)), hr]

theorem setup_protocol_proto_family {n n' : Node}
    (h : setup_protocol_proto n = some n') : n'.ai_family = n.ai_family := by
  unfold setup_protocol_proto at h
  repeat' split at h
  all_goals first
    | (simp only [Option.some.injEq] at h; subst h; rfl)
    | exact absurd h (by simp)

theorem setup_protocol_node_family {n n' : Node}
    (h : setup_protocol_node n = some n') : n'.ai_family = n.ai_family := by
  unfold setup_protocol_node at h
  repeat' split at h
  all_goals first
    | (have h2 := setup_protocol_proto_family h; simpa using h2)
    | exact absurd h (by simp)

theorem setup_protocol_families :
    ∀ l l', setup_protocol l = some l' →
      (∀ n ∈ l, n.ai_family = AF_INET ∨ n.ai_family = AF_INET6) →
      (∀ n ∈ l', n.ai_family = AF_INET ∨ n.ai_family = AF_INET6) := by
  intro l
  induction l with
  | nil => intro l' h _; simp [setup_protocol] at h; subst h; simp
  | cons n rest ih =>
    intro l' h hf
    simp only [setup_protocol] at h
    cases hn : setup_protocol_node n with
    | none => rw [hn] at h; exact absurd h (by simp)
    | some n' =>
      rw [hn] at h
      cases hr : setup_protocol rest with
      | none => rw [hr] at h; exact absurd h (by simp)
      | some rest' =>
        rw [hr] at h
        simp only [Option.some.injEq] at h
        subst h
        intro m hm
        rcases List.mem_cons.mp hm with h | h
        · subst h
          rw [setup_protocol_node_family hn]
          exact hf n (List.mem_cons_self _ _)
        · exact ih rest' hr (fun m hm => hf m (List.mem_cons_of_mem _ hm)) m h

theorem setup_protocol_length :
    ∀ l l', setup_protocol l = some l' → l'.length = l.length := by
  intro l
  induction l with
  | nil => intro l' h; simp [setup_protocol] at h; subst h; rfl
  | cons n rest ih =>
    intro l' h
    simp only [setup_protocol] at h
    cases hn : setup_protocol_node n with
    | none => rw [hn] at h; exact absurd h (by simp)
    | some n' =>
      rw [hn] at h
      cases hr : setup_protocol rest with
      | none => rw [hr] at h; exact absurd h (by simp)
      | some rest' =>
        rw [hr] at h
        simp only [Option.some.injEq] at h
        subst h
        simp [ih rest' hr]

/-- C7: `ares_getaddrinfo` performs its entry validations in source order,
each failing synchronously through the callback without creating a request:
null channel → `EBADQUERY` with `errno = EINVAL`; node and service both
absent → `ENONAME`; `AI_CANONNAME` without node → `EBADFLAGS`; `AI_ALL`
without `AI_V4MAPPED` → `EBADFLAGS`; a hints family outside
{`UNSPEC`, `INET`, `INET6`} → `EBADFAMILY`. -/
theorem C7_entry_validations (env : Env) (chn : Bool)
    (node service : Option String) (hintsOpt : Option Hints) :
    (chn = true →
      ares_getaddrinfo env chn node service hintsOpt =
        [.errno EINVAL, .cb ARES_EBADQUERY 0 []]) ∧
    (chn = false → node = none → service = none →
      ares_getaddrinfo env chn node service hintsOpt =
        [.cb ARES_ENONAME 0 []]) ∧
    (chn = false → (node.isSome ∨ service.isSome) →
      (hintsOpt.getD DEFAULT_HINTS).ai_flags.canonname = true → node = none →
      ares_getaddrinfo env chn node service hintsOpt =
        [.cb ARES_EBADFLAGS 0 []]) ∧
    (chn = false → (node.isSome ∨ service.isSome) →
      ¬((hintsOpt.getD DEFAULT_HINTS).ai_flags.canonname = true ∧ node = none) →
      (hintsOpt.getD DEFAULT_HINTS).ai_flags.all = true →
      (hintsOpt.getD DEFAULT_HINTS).ai_flags.v4mapped = false →
      ares_getaddrinfo env chn node service hintsOpt =
        [.cb ARES_EBADFLAGS 0 []]) ∧
    (chn = false → (node.isSome ∨ service.isSome) →
      ¬((hintsOpt.getD DEFAULT_HINTS).ai_flags.canonname = true ∧ node = none) →
      ¬((hintsOpt.getD DEFAULT_HINTS).ai_flags.all = true ∧
        (hintsOpt.getD DEFAULT_HINTS).ai_flags.v4mapped = false) →
      (hintsOpt.getD DEFAULT_HINTS).ai_family ≠ AF_UNSPEC →
      (hintsOpt.getD DEFAULT_HINTS).ai_family ≠ AF_INET →
      (hintsOpt.getD DEFAULT_HINTS).ai_family ≠ AF_INET6 →
      ares_getaddrinfo env chn node service hintsOpt =
        [.cb ARES_EBADFAMILY 0 []]) := by
  refine ⟨?_, ?_, ?_, ?_, ?_⟩
  · intro h; subst h; rfl
  · intro h hn hs; subst h; subst hn; subst hs; rfl
  · intro h hns hc hn
    subst h; subst hn
    rcases hns with hns | hns
    · simp at hns
    · obtain ⟨s, rfl⟩ := Option.isSome_iff_exists.mp hns
      simp [ares_getaddrinfo, hc]
  · intro h hns hcn hall hv4
    subst h
    have h2 : (node.isNone && service.isNone) = false := by
      rcases hns with hns | hns <;> cases node <;> cases service <;> simp_all
    have h3 : ((hintsOpt.getD DEFAULT_HINTS).ai_flags.canonname && node.isNone) = false := by
      cases hcv : (hintsOpt.getD DEFAULT_HINTS).ai_flags.canonname
      · simp
      · cases hnv : node
        · exact absurd ⟨hcv, hnv⟩ hcn
        · simp
    simp [ares_getaddrinfo, h2, h3, hall, hv4]
  · intro h hns hcn hallv hf1 hf2 hf3
    subst h
    have h2 : (node.isNone && service.isNone) = false := by
      rcases hns with hns | hns <;> cases node <;> cases service <;> simp_all
    have h3 : ((hintsOpt.getD DEFAULT_HINTS).ai_flags.canonname && node.isNone) = false := by
      cases hcv : (hintsOpt.getD DEFAULT_HINTS).ai_flags.canonname
      · simp
      · cases hnv : node
        · exact absurd ⟨hcv, hnv⟩ hcn
        · simp
    have h4 : ((hintsOpt.getD DEFAULT_HINTS).ai_flags.all &&
        !(hintsOpt.getD DEFAULT_HINTS).ai_flags.v4mapped) = false := by
      cases ha : (hintsOpt.getD DEFAULT_HINTS).ai_flags.all
      · simp
      · cases hv : (hintsOpt.getD DEFAULT_HINTS).ai_flags.v4mapped
        · exact absurd ⟨ha, hv⟩ hallv
        · simp
    have h5 : ((hintsOpt.getD DEFAULT_HINTS).ai_family == AF_UNSPEC ||
        (hintsOpt.getD DEFAULT_HINTS).ai_family == AF_INET ||
        (hintsOpt.getD DEFAULT_HINTS).ai_family == AF_INET6) = false := by
      simp only [Bool.or_eq_false_iff, beq_eq_false_iff_ne, ne_eq]
      exact ⟨⟨hf1, hf2⟩, hf3⟩
    simp [ares_getaddrinfo, h2, h3, h4, h5]

/-- Witness for C7 at a concrete input (null channel). -/
theorem C7_entry_validations_witness :
    ares_getaddrinfo envW true (some "a") none none =
      [.errno EINVAL, .cb ARES_EBADQUERY 0 []] :=
  (C7_entry_validations envW true (some "a") none none).1 rfl

/-- C8: `try_serv_strtol` parses the service as a base-10 integer that must
consume the whole string; on a partial parse it falls through via
`next_state` with the request unchanged (`SERV` still set, chain
unmodified); on a whole-string parse it first applies socktype/protocol
defaulting to every node (`EBADFAMILY` when no default exists), then stamps
`htons(val)` into every node's sockaddr and clears `SERV`. -/
theorem C8_try_serv_strtol (env : Env) (cb : Gaicb) (a d : Nat) (s : String)
    (hs : cb.ar_service = some s) :
    ((strtol10 s).2 ≠ s.length → try_serv_strtol env cb a d = .next cb a d) ∧
    ((strtol10 s).2 = s.length → setup_protocol cb.ar_result = none →
      try_serv_strtol env cb a d =
        .halt [.cb ARES_EBADFAMILY cb.ar_timeouts [], .free]) ∧
    (∀ ns ns', (strtol10 s).2 = s.length →
      setup_protocol cb.ar_result = some ns →
      stampPorts (htons (strtol10 s).1) ns = some ns' →
      try_serv_strtol env cb a d =
        .next { cb with ar_result := ns',
                        ar_state := { cb.ar_state with serv := false } } a d ∧
      (∀ n ∈ ns', n.port = htons (strtol10 s).1) ∧
      ns'.length = cb.ar_result.length) := by
  refine ⟨?_, ?_, ?_⟩
  · intro hne
    simp only [try_serv_strtol, hs]
    rw [if_pos hne]
  · intro he hsp
    simp [try_serv_strtol, hs, he, hsp]
  · intro ns ns' he hsp hst
    refine ⟨?_, (stampPorts_spec _ _ _ hst).1,
      by rw [(stampPorts_spec _ _ _ hst).2, setup_protocol_length _ _ hsp]⟩
    simp [try_serv_strtol, hs, he, hsp, hst]

/-- Witness for C8 at a concrete input: service `"80"`, one `INET` node. -/
theorem C8_try_serv_strtol_witness :
    try_serv_strtol envW cbW8 0 0 =
      .next { cbW8 with
              ar_result := [nodeW8],
              ar_state := { cbW8.ar_state with serv := false } } 0 0 ∧
    (∀ n ∈ [nodeW8], n.port = htons (strtol10 "80").1) ∧
    ([nodeW8] : List Node).length = cbW8.ar_result.length :=
  (C8_try_serv_strtol envW cbW8 0 0 "80" rfl).2.2 _ _ (by decide) rfl rfl

/-- C9: the numeric-service path performs no range or sign validation:
whenever `strtol` consumes the whole service string (empty string, negative
values, values above 65535 included) and the socktype/protocol defaulting
over the (well-formed, `INET`/`INET6`) chain succeeds, the step succeeds
and stamps the parsed long reduced modulo `2^16` into every node. -/
theorem C9_no_range_check (env : Env) (cb : Gaicb) (a d : Nat) (s : String)
    (hs : cb.ar_service = some s)
    (hwhole : (strtol10 s).2 = s.length)
    (hfam : ∀ n ∈ cb.ar_result, n.ai_family = AF_INET ∨ n.ai_family = AF_INET6)
    (ns : List Node) (hsp : setup_protocol cb.ar_result = some ns) :
    ∃ ns', try_serv_strtol env cb a d =
        .next { cb with ar_result := ns',
                        ar_state := { cb.ar_state with serv := false } } a d ∧
      ∀ n ∈ ns', n.port = ((strtol10 s).1 % 65536).toNat := by
  obtain ⟨ns', hst⟩ := stampPorts_total (htons (strtol10 s).1) ns
    (setup_protocol_families _ _ hsp hfam)
  refine ⟨ns', ?_, ?_⟩
  · simp [try_serv_strtol, hs, hwhole, hsp, hst]
  · intro n hn
    have h := (stampPorts_spec _ _ _ hst).1 n hn
    simpa [htons] using h

/-- Witness for C9 at three concrete services: the empty string (port 0),
a negative value, and a value above 65535. -/
theorem C9_no_range_check_witness :
    (∃ ns', try_serv_strtol envW { cbW8 with ar_service := some "" } 0 0 =
        .next { cbW8 with
                ar_service := some "", ar_result := ns',
                ar_state := { cbW8.ar_state with serv := false } } 0 0 ∧
      ∀ n ∈ ns', n.port = ((strtol10 "").1 % 65536).toNat) ∧
    (∃ ns', try_serv_strtol envW { cbW8 with ar_service := some "-5" } 0 0 =
        .next { cbW8 with
                ar_service := some "-5", ar_result := ns',
                ar_state := { cbW8.ar_state with serv := false } } 0 0 ∧
      ∀ n ∈ ns', n.port = ((strtol10 "-5").1 % 65536).toNat) ∧
    (∃ ns', try_serv_strtol envW { cbW8 with ar_service := some "70000" } 0 0 =
        .next { cbW8 with
                ar_service := some "70000", ar_result := ns',
                ar_state := { cbW8.ar_state with serv := false } } 0 0 ∧
      ∀ n ∈ ns', n.port = ((strtol10 "70000").1 % 65536).toNat) :=
  ⟨C9_no_range_check envW _ 0 0 "" rfl (by decide) (by decide) _ rfl,
   C9_no_range_check envW _ 0 0 "-5" rfl (by decide) (by decide) _ rfl,
   C9_no_range_check envW _ 0 0 "70000" rfl (by decide) (by decide) _ rfl⟩

/- --- Weight lemmas for the bitmask --- -/

theorem weight_le_clear_hosts (s : StateBits) :
    ({ s with host_inet := false, host_inet6 := false } : StateBits).weight ≤
      s.weight := by
  cases s; simp [StateBits.weight] <;> omega

theorem weight_le_clear_h4 (s : StateBits) :
    ({ s with host_inet := false } : StateBits).weight ≤ s.weight := by
  cases s; simp [StateBits.weight] <;> omega

theorem weight_le_clear_h4h6 (s : StateBits) :
    ({ s with host_inet6 := false, host_inet := false } : StateBits).weight ≤
      s.weight := by
  cases s; simp [StateBits.weight] <;> omega

theorem weight_le_clear_h6 (s : StateBits) :
    ({ s with host_inet6 := false } : StateBits).weight ≤ s.weight := by
  cases s; simp [StateBits.weight] <;> omega

theorem weight_le_clear_serv (s : StateBits) :
    ({ s with serv := false } : StateBits).weight ≤ s.weight := by
  cases s; simp [StateBits.weight] <;> omega

theorem weight_lt_clear_nh6 {s : StateBits} (h : s.numeric_host_inet6 = true) :
    ({ s with numeric_host_inet6 := false } : StateBits).weight < s.weight := by
  cases s; simp_all [StateBits.weight]

theorem weight_lt_clear_nh4 {s : StateBits} (h : s.numeric_host_inet = true) :
    ({ s with numeric_host_inet := false } : StateBits).weight < s.weight := by
  cases s; simp_all [StateBits.weight]

theorem weight_lt_clear_h6 {s : StateBits} (h : s.host_inet6 = true) :
    ({ s with host_inet6 := false } : StateBits).weight < s.weight := by
  cases s; simp_all [StateBits.weight]

theorem weight_lt_clear_h4 {s : StateBits} (h : s.host_inet = true) :
    ({ s with host_inet := false } : StateBits).weight < s.weight := by
  cases s; simp_all [StateBits.weight]

theorem weight_lt_clear_canon {s : StateBits} (h : s.canonical = true) :
    ({ s with canonical := false } : StateBits).weight < s.weight := by
  cases s; simp_all [StateBits.weight]

theorem weight_lt_clear_nserv {s : StateBits} (h : s.numeric_serv = true) :
    ({ s with numeric_serv := false } : StateBits).weight < s.weight := by
  cases s; simp_all [StateBits.weight]

theorem weight_lt_clear_serv {s : StateBits} (h : s.serv = true) :
    ({ s with serv := false } : StateBits).weight < s.weight := by
  cases s; simp_all [StateBits.weight]

/- --- Step-specification lemmas --- -/

theorem pton_finish_stepSpec (env : Env) (cb : Gaicb) (r : Node)
    (rest : List Node) (a d : Nat) :
    StepSpec cb (pton_finish env cb r rest a d) := by
  unfold pton_finish
  repeat' split
  all_goals
    simp_all [StepSpec, Terminal, weight_le_clear_hosts]

theorem pton_inet_found_stepSpec (env : Env) (cb : Gaicb) (addr a d : Nat) :
    StepSpec cb (pton_inet_found env cb addr a d) := by
  unfold pton_inet_found
  split
  · exact pton_finish_stepSpec env cb _ cb.ar_result (a + 1) d
  · simp [StepSpec, Terminal]
    intro s t r _ ht _
    exact Or.inr ht.symm

theorem pton_inet6_found_stepSpec (env : Env) (cb : Gaicb) (addr a d : Nat) :
    StepSpec cb (pton_inet6_found env cb addr a d) := by
  unfold pton_inet6_found
  split
  · exact pton_finish_stepSpec env cb _ cb.ar_result (a + 1) d
  · simp [StepSpec, Terminal]
    intro s t r _ ht _
    exact Or.inr ht.symm

theorem try_pton_inet_stepSpec (env : Env) (cb : Gaicb) (a d : Nat) :
    StepSpec cb (try_pton_inet env cb a d) := by
  unfold try_pton_inet
  repeat' split
  all_goals first
    | exact pton_inet_found_stepSpec env cb _ a d
    | simp [StepSpec, Terminal]

theorem try_pton_inet6_stepSpec (env : Env) (cb : Gaicb) (a d : Nat) :
    StepSpec cb (try_pton_inet6 env cb a d) := by
  unfold try_pton_inet6
  repeat' split
  all_goals first
    | exact pton_inet6_found_stepSpec env cb _ a d
    | simp [StepSpec, Terminal]

theorem host_canonical_stepSpec (env : Env) (he : Hostent) (cb : Gaicb)
    (a d : Nat) :
    StepSpec cb (host_canonical env he cb a d) := by
  unfold host_canonical
  repeat' split
  all_goals
    simp_all [StepSpec, Terminal]

theorem find_canonical_stepSpec (env : Env) (cb : Gaicb) (a d : Nat) :
    StepSpec cb (find_canonical env cb a d) := by
  unfold find_canonical
  repeat' split
  all_goals
    simp_all [StepSpec, Terminal]

theorem try_serv_strtol_stepSpec (env : Env) (cb : Gaicb) (a d : Nat) :
    StepSpec cb (try_serv_strtol env cb a d) := by
  unfold try_serv_strtol
  repeat' split
  all_goals
    simp_all [StepSpec, Terminal, weight_le_clear_serv]

theorem resolve_serv_stepSpec (env : Env) (cb : Gaicb) (a d : Nat) :
    StepSpec cb (resolve_serv env cb a d) := by
  unfold resolve_serv
  repeat' split
  all_goals
    simp_all [StepSpec, Terminal]

theorem StepSpec.mono {cbIn cbOut : Gaicb} {out : StepOut}
    (h : StepSpec cbIn out)
    (hw : cbIn.ar_state.weight ≤ cbOut.ar_state.weight)
    (ht : cbIn.ar_timeouts = cbOut.ar_timeouts)
    (hn : cbIn.ar_node = cbOut.ar_node)
    (hs : cbIn.ar_service = cbOut.ar_service)
    (hh : cbIn.ar_hints = cbOut.ar_hints) :
    StepSpec cbOut out := by
  cases out with
  | halt tr =>
    refine ⟨h.1, fun s t r he => ?_⟩
    rcases h.2 s t r he with h' | h'
    · exact Or.inl (ht ▸ h')
    · exact Or.inr h'
  | next cb2 a2 d2 =>
    obtain ⟨w, t, n, sv, hi⟩ := h
    exact ⟨le_trans w hw, ht ▸ t, hn ▸ n, hs ▸ sv, hh ▸ hi⟩

theorem host_callback_inet_stepSpec (env : Env) (he : Hostent) (cb : Gaicb)
    (a d : Nat) :
    StepSpec cb (host_callback_inet env he cb a d) := by
  unfold host_callback_inet
  cases hadd : addInetNodes env cb.ar_hints he.h_addr_list cb.ar_result a with
  | none =>
    refine ⟨Or.inl ⟨_, _, _, rfl⟩, ?_⟩
    intro s t r he2
    simp at he2
    omega
  | some p =>
    obtain ⟨res, a2⟩ := p
    exact StepSpec.mono (host_canonical_stepSpec env he _ a2 d)
      (weight_le_clear_h4 _) rfl rfl rfl rfl

theorem host_callback_inet6_stepSpec (env : Env) (he : Hostent) (cb : Gaicb)
    (a d : Nat) :
    StepSpec cb (host_callback_inet6 env he cb a d) := by
  unfold host_callback_inet6
  cases hadd : addInet6Nodes env cb.ar_hints he.h_addr_list cb.ar_result a with
  | none =>
    refine ⟨Or.inl ⟨_, _, _, rfl⟩, ?_⟩
    intro s t r he2
    simp at he2
    omega
  | some p =>
    obtain ⟨res, a2⟩ := p
    refine StepSpec.mono (host_canonical_stepSpec env he _ a2 d)
      ?_ rfl rfl rfl rfl
    split
    · exact weight_le_clear_h4h6 _
    · exact weight_le_clear_h6 _

theorem host_callback_stepSpec (env : Env) (reply : HostReply) (cb0 : Gaicb)
    (a d : Nat) :
    StepSpec { cb0 with ar_timeouts := cb0.ar_timeouts + reply.timeouts }
      (host_callback env reply cb0 a d) := by
  simp only [host_callback]
  by_cases hst : reply.status ≠ ARES_SUCCESS
  · rw [if_pos hst]
    split
    · simp [StepSpec]
    · refine ⟨Or.inl ⟨_, _, _, rfl⟩, ?_⟩
      intro s t r he2
      simp at he2 ⊢
      omega
  · rw [if_neg hst]
    by_cases h4 : reply.hostent.h_addrtype = AF_INET
    · rw [if_pos h4]
      exact host_callback_inet_stepSpec env reply.hostent _ a d
    · rw [if_neg h4]
      by_cases h6 : reply.hostent.h_addrtype = AF_INET6
      · rw [if_pos h6]
        exact host_callback_inet6_stepSpec env reply.hostent _ a d
      · rw [if_neg h6]
        exact StepSpec.mono (host_canonical_stepSpec env reply.hostent _ a d)
          (le_refl _) rfl rfl rfl rfl

/- --- Step-shape lemmas for host_callback and the pton steps --- -/

theorem host_canonical_state {env : Env} {he : Hostent} {cb : Gaicb}
    {a d : Nat} {cb' : Gaicb} {a' d' : Nat}
    (h : host_canonical env he cb a d = .next cb' a' d') :
    cb'.ar_state = cb.ar_state := by
  unfold host_canonical at h
  repeat' split at h
  all_goals first
    | (cases h; rfl)
    | simp at h

theorem pton_finish_next {env : Env} {cb : Gaicb} {r : Node} {rest : List Node}
    {a d : Nat} {cb' : Gaicb} {a' d' : Nat}
    (h : pton_finish env cb r rest a d = .next cb' a' d') :
    (∃ c, cb'.ar_result = { r with ai_canonname := c } :: rest) ∧
    cb'.ar_state = { cb.ar_state with host_inet := false, host_inet6 := false } := by
  unfold pton_finish at h
  repeat' split at h
  all_goals first
    | (cases h; exact ⟨⟨_, rfl⟩, rfl⟩)
    | simp at h

theorem addInetNodes_ne_nil {env : Env} {hints : Hints} :
    ∀ {l : List Nat} {acc : List Node} {a : Nat} {res : List Node} {a' : Nat},
      addInetNodes env hints l acc a = some (res, a') → acc ≠ [] → res ≠ [] := by
  intro l
  induction l with
  | nil =>
    intro acc a res a' h hne
    simp only [addInetNodes, Option.some.injEq, Prod.mk.injEq] at h
    rw [← h.1]; exact hne
  | cons x rest ih =>
    intro acc a res a' h hne
    simp only [addInetNodes] at h
    split at h
    · exact ih h (by simp)
    · simp at h

theorem addInet6Nodes_ne_nil {env : Env} {hints : Hints} :
    ∀ {l : List Nat} {acc : List Node} {a : Nat} {res : List Node} {a' : Nat},
      addInet6Nodes env hints l acc a = some (res, a') → acc ≠ [] → res ≠ [] := by
  intro l
  induction l with
  | nil =>
    intro acc a res a' h hne
    simp only [addInet6Nodes, Option.some.injEq, Prod.mk.injEq] at h
    rw [← h.1]; exact hne
  | cons x rest ih =>
    intro acc a res a' h hne
    simp only [addInet6Nodes] at h
    split at h
    · exact ih h (by simp)
    · simp at h

theorem host_canonical_wellDefined {env : Env} {he : Hostent} {cb : Gaicb}
    {a d : Nat} (hne : cb.ar_result ≠ []) :
    (host_canonical env he cb a d).wellDefined := by
  unfold host_canonical
  repeat' split
  all_goals simp_all [StepOut.wellDefined]

theorem host_callback_inet_wellDefined {env : Env} {he : Hostent} {cb : Gaicb}
    {a d : Nat} (hne : cb.ar_result ≠ []) :
    (host_callback_inet env he cb a d).wellDefined := by
  unfold host_callback_inet
  cases hadd : addInetNodes env cb.ar_hints he.h_addr_list cb.ar_result a with
  | none => simp [StepOut.wellDefined]
  | some p =>
    obtain ⟨res, a2⟩ := p
    exact host_canonical_wellDefined (addInetNodes_ne_nil hadd hne)

theorem host_callback_inet6_wellDefined {env : Env} {he : Hostent} {cb : Gaicb}
    {a d : Nat} (hne : cb.ar_result ≠ []) :
    (host_callback_inet6 env he cb a d).wellDefined := by
  unfold host_callback_inet6
  cases hadd : addInet6Nodes env cb.ar_hints he.h_addr_list cb.ar_result a with
  | none => simp [StepOut.wellDefined]
  | some p =>
    obtain ⟨res, a2⟩ := p
    exact host_canonical_wellDefined (addInet6Nodes_ne_nil hadd hne)

/- --- The dispatcher: structural shape of every trace --- -/

theorem contStep_shape (rec : Gaicb → Nat → Nat → List Event)
    (gs : List Event) (hgs : ∀ e ∈ gs, e.isGhost = true)
    (out : StepOut) (cbIn : Gaicb) (hspec : StepSpec cbIn out)
    (IH : ∀ cb2 a2 d2, cb2.ar_state.weight ≤ cbIn.ar_state.weight →
      ∃ pre term, rec cb2 a2 d2 = pre ++ term ∧
        (∀ e ∈ pre, e.isGhost = true) ∧ Terminal term) :
    ∃ pre term, contStep rec gs out = pre ++ term ∧
      (∀ e ∈ pre, e.isGhost = true) ∧ Terminal term := by
  cases out with
  | halt tr => exact ⟨gs, tr, rfl, hgs, hspec.1⟩
  | next cb2 a2 d2 =>
    obtain ⟨pre, term, heq, hp, ht⟩ := IH cb2 a2 d2 hspec.1
    refine ⟨gs ++ pre, term, ?_, ?_, ht⟩
    · show gs ++ rec cb2 a2 d2 = gs ++ pre ++ term
      rw [heq, List.append_assoc]
    · intro e he
      rcases List.mem_append.mp he with h2 | h2
      · exact hgs e h2
      · exact hp e h2

/-- One-step case analysis of the dispatcher: exactly one of the eleven
branches of `next_state` fires, determined by the guards in priority
order. -/
theorem nextState_succ_cases (env : Env) (fuel : Nat) (cb : Gaicb)
    (a d : Nat) :
    (cb.ar_state.numeric_host_inet6 = true ∧
      nextState env (fuel + 1) cb a d =
        contStep (nextState env fuel)
          [.step .pton6 { cb.ar_state with numeric_host_inet6 := false }]
          (try_pton_inet6 env
            { cb with ar_state := { cb.ar_state with numeric_host_inet6 := false } }
            a d)) ∨
    (cb.ar_state.numeric_host_inet6 = false ∧
     cb.ar_state.numeric_host_inet = true ∧
      nextState env (fuel + 1) cb a d =
        contStep (nextState env fuel)
          [.step .pton4 { cb.ar_state with numeric_host_inet := false }]
          (try_pton_inet env
            { cb with ar_state := { cb.ar_state with numeric_host_inet := false } }
            a d)) ∨
    (cb.ar_state.numeric_host_inet6 = false ∧
     cb.ar_state.numeric_host_inet = false ∧
     (cb.ar_state.anyHost && cb.ar_hints.ai_flags.numerichost) = true ∧
      nextState env (fuel + 1) cb a d = [.cb ARES_ENONAME 0 [], .free]) ∨
    (cb.ar_state.numeric_host_inet6 = false ∧
     cb.ar_state.numeric_host_inet = false ∧
     (cb.ar_state.anyHost && cb.ar_hints.ai_flags.numerichost) = false ∧
     cb.ar_state.host_inet6 = true ∧
      nextState env (fuel + 1) cb a d =
        contStep (nextState env fuel)
          [.step .resolve6 { cb.ar_state with host_inet6 := false },
           .hostcb (env.dns d).timeouts]
          (host_callback env (env.dns d)
            { cb with ar_state := { cb.ar_state with host_inet6 := false } }
            a (d + 1))) ∨
    (cb.ar_state.numeric_host_inet6 = false ∧
     cb.ar_state.numeric_host_inet = false ∧
     (cb.ar_state.anyHost && cb.ar_hints.ai_flags.numerichost) = false ∧
     cb.ar_state.host_inet6 = false ∧
     cb.ar_state.host_inet = true ∧
      nextState env (fuel + 1) cb a d =
        contStep (nextState env fuel)
          [.step .resolve4 { cb.ar_state with host_inet := false },
           .hostcb (env.dns d).timeouts]
          (host_callback env (env.dns d)
            { cb with ar_state := { cb.ar_state with host_inet := false } }
            a (d + 1))) ∨
    (cb.ar_state.numeric_host_inet6 = false ∧
     cb.ar_state.numeric_host_inet = false ∧
     (cb.ar_state.anyHost && cb.ar_hints.ai_flags.numerichost) = false ∧
     cb.ar_state.host_inet6 = false ∧
     cb.ar_state.host_inet = false ∧
     cb.ar_state.canonical = true ∧
      nextState env (fuel + 1) cb a d =
        contStep (nextState env fuel)
          [.step .canonical { cb.ar_state with canonical := false }]
          (find_canonical env
            { cb with ar_state := { cb.ar_state with canonical := false } } a d)) ∨
    (cb.ar_state.numeric_host_inet6 = false ∧
     cb.ar_state.numeric_host_inet = false ∧
     (cb.ar_state.anyHost && cb.ar_hints.ai_flags.numerichost) = false ∧
     cb.ar_state.host_inet6 = false ∧
     cb.ar_state.host_inet = false ∧
     cb.ar_state.canonical = false ∧
     cb.ar_state.numeric_serv = true ∧
      nextState env (fuel + 1) cb a d =
        contStep (nextState env fuel)
          [.step .serv_strtol { cb.ar_state with numeric_serv := false }]
          (try_serv_strtol env
            { cb with ar_state := { cb.ar_state with numeric_serv := false } } a d)) ∨
    (cb.ar_state.numeric_host_inet6 = false ∧
     cb.ar_state.numeric_host_inet = false ∧
     (cb.ar_state.anyHost && cb.ar_hints.ai_flags.numerichost) = false ∧
     cb.ar_state.host_inet6 = false ∧
     cb.ar_state.host_inet = false ∧
     cb.ar_state.canonical = false ∧
     cb.ar_state.numeric_serv = false ∧
     (cb.ar_state.serv && cb.ar_hints.ai_flags.numericserv) = true ∧
      nextState env (fuel + 1) cb a d = [.cb ARES_ENONAME 0 [], .free]) ∨
    (cb.ar_state.numeric_host_inet6 = false ∧
     cb.ar_state.numeric_host_inet = false ∧
     (cb.ar_state.anyHost && cb.ar_hints.ai_flags.numerichost) = false ∧
     cb.ar_state.host_inet6 = false ∧
     cb.ar_state.host_inet = false ∧
     cb.ar_state.canonical = false ∧
     cb.ar_state.numeric_serv = false ∧
     (cb.ar_state.serv && cb.ar_hints.ai_flags.numericserv) = false ∧
     cb.ar_state.serv = true ∧
      nextState env (fuel + 1) cb a d =
        contStep (nextState env fuel)
          [.step .serv_resolve { cb.ar_state with serv := false }]
          (resolve_serv env
            { cb with ar_state := { cb.ar_state with serv := false } } a d)) ∨
    (cb.ar_state.numeric_host_inet6 = false ∧
     cb.ar_state.numeric_host_inet = false ∧
     (cb.ar_state.anyHost && cb.ar_hints.ai_flags.numerichost) = false ∧
     cb.ar_state.host_inet6 = false ∧
     cb.ar_state.host_inet = false ∧
     cb.ar_state.canonical = false ∧
     cb.ar_state.numeric_serv = false ∧
     (cb.ar_state.serv && cb.ar_hints.ai_flags.numericserv) = false ∧
     cb.ar_state.serv = false ∧
     cb.ar_state.isEmpty = true ∧
      nextState env (fuel + 1) cb a d =
        [.cb ARES_SUCCESS cb.ar_timeouts cb.ar_result, .free]) ∨
    (cb.ar_state.numeric_host_inet6 = false ∧
     cb.ar_state.numeric_host_inet = false ∧
     (cb.ar_state.anyHost && cb.ar_hints.ai_flags.numerichost) = false ∧
     cb.ar_state.host_inet6 = false ∧
     cb.ar_state.host_inet = false ∧
     cb.ar_state.canonical = false ∧
     cb.ar_state.numeric_serv = false ∧
     (cb.ar_state.serv && cb.ar_hints.ai_flags.numericserv) = false ∧
     cb.ar_state.serv = false ∧
     cb.ar_state.isEmpty = false ∧
      nextState env (fuel + 1) cb a d = [.cb ARES_EFORMERR 0 [], .free]) := by
  rw [nextState]
  by_cases h1 : cb.ar_state.numeric_host_inet6 = true
  · rw [if_pos h1]
    exact Or.inl ⟨h1, rfl⟩
  rw [if_neg h1]
  rw [Bool.not_eq_true] at h1
  by_cases h2 : cb.ar_state.numeric_host_inet = true
  · rw [if_pos h2]
    exact Or.inr (Or.inl ⟨h1, h2, rfl⟩)
  rw [if_neg h2]
  rw [Bool.not_eq_true] at h2
  by_cases h3 : (cb.ar_state.anyHost && cb.ar_hints.ai_flags.numerichost) = true
  · rw [if_pos h3]
    exact Or.inr (Or.inr (Or.inl ⟨h1, h2, h3, rfl⟩))
  rw [if_neg h3]
  rw [Bool.not_eq_true] at h3
  by_cases h4 : cb.ar_state.host_inet6 = true
  · rw [if_pos h4]
    exact Or.inr (Or.inr (Or.inr (Or.inl ⟨h1, h2, h3, h4, rfl⟩)))
  rw [if_neg h4]
  rw [Bool.not_eq_true] at h4
  by_cases h5 : cb.ar_state.host_inet = true
  · rw [if_pos h5]
    exact Or.inr (Or.inr (Or.inr (Or.inr (Or.inl ⟨h1, h2, h3, h4, h5, rfl⟩))))
  rw [if_neg h5]
  rw [Bool.not_eq_true] at h5
  by_cases h6 : cb.ar_state.canonical = true
  · rw [if_pos h6]
    exact Or.inr (Or.inr (Or.inr (Or.inr (Or.inr (Or.inl
      ⟨h1, h2, h3, h4, h5, h6, rfl⟩)))))
  rw [if_neg h6]
  rw [Bool.not_eq_true] at h6
  by_cases h7 : cb.ar_state.numeric_serv = true
  · rw [if_pos h7]
    exact Or.inr (Or.inr (Or.inr (Or.inr (Or.inr (Or.inr (Or.inl
      ⟨h1, h2, h3, h4, h5, h6, h7, rfl⟩))))))
  rw [if_neg h7]
  rw [Bool.not_eq_true] at h7
  by_cases h8 : (cb.ar_state.serv && cb.ar_hints.ai_flags.numericserv) = true
  · rw [if_pos h8]
    exact Or.inr (Or.inr (Or.inr (Or.inr (Or.inr (Or.inr (Or.inr (Or.inl
      ⟨h1, h2, h3, h4, h5, h6, h7, h8, rfl⟩)))))))
  rw [if_neg h8]
  rw [Bool.not_eq_true] at h8
  by_cases h9 : cb.ar_state.serv = true
  · rw [if_pos h9]
    exact Or.inr (Or.inr (Or.inr (Or.inr (Or.inr (Or.inr (Or.inr (Or.inr
      (Or.inl ⟨h1, h2, h3, h4, h5, h6, h7, h8, h9, rfl⟩))))))))
  rw [if_neg h9]
  rw [Bool.not_eq_true] at h9
  by_cases h10 : cb.ar_state.isEmpty = true
  · rw [if_pos h10]
    exact Or.inr (Or.inr (Or.inr (Or.inr (Or.inr (Or.inr (Or.inr (Or.inr
      (Or.inr (Or.inl ⟨h1, h2, h3, h4, h5, h6, h7, h8, h9, h10, rfl⟩)))))))))
  rw [if_neg h10]
  rw [Bool.not_eq_true] at h10
  exact Or.inr (Or.inr (Or.inr (Or.inr (Or.inr (Or.inr (Or.inr (Or.inr
    (Or.inr (Or.inr ⟨h1, h2, h3, h4, h5, h6, h7, h8, h9, h10, rfl⟩)))))))))

/-- Every dispatcher trace with sufficient fuel is a sequence of ghost
events followed by a terminal sequence (one callback then the release, or
the undefined-behaviour marker). -/
theorem nextState_shape (env : Env) :
    ∀ fuel (cb : Gaicb) (a d : Nat), cb.ar_state.weight < fuel →
      ∃ pre term, nextState env fuel cb a d = pre ++ term ∧
        (∀ e ∈ pre, e.isGhost = true) ∧ Terminal term := by
  intro fuel
  induction fuel with
  | zero => intro cb a d hw; exact absurd hw (Nat.not_lt_zero _)
  | succ fuel ih =>
    intro cb a d hw
    rcases nextState_succ_cases env fuel cb a d with
      ⟨h, heq⟩ | ⟨h1, h, heq⟩ | ⟨h1, h2, h3, heq⟩ | ⟨h1, h2, h3, h, heq⟩ |
      ⟨h1, h2, h3, h4, h, heq⟩ | ⟨h1, h2, h3, h4, h5, h, heq⟩ |
      ⟨h1, h2, h3, h4, h5, h6, h, heq⟩ |
      ⟨h1, h2, h3, h4, h5, h6, h7, h8, heq⟩ |
      ⟨h1, h2, h3, h4, h5, h6, h7, h8, h, heq⟩ |
      ⟨h1, h2, h3, h4, h5, h6, h7, h8, h9, h10, heq⟩ |
      ⟨h1, h2, h3, h4, h5, h6, h7, h8, h9, h10, heq⟩
    · rw [heq]
      refine contStep_shape _ _ ?_ _ _ (try_pton_inet6_stepSpec env _ a d) ?_
      · intro e he
        simp only [List.mem_singleton] at he
        subst he; rfl
      · intro cb2 a2 d2 hle
        refine ih cb2 a2 d2 ?_
        have h1w : ({ cb.ar_state with numeric_host_inet6 := false } : StateBits).weight <
            cb.ar_state.weight := weight_lt_clear_nh6 h
        have hle2 : cb2.ar_state.weight ≤
            ({ cb.ar_state with numeric_host_inet6 := false } : StateBits).weight := hle
        omega
    · rw [heq]
      refine contStep_shape _ _ ?_ _ _ (try_pton_inet_stepSpec env _ a d) ?_
      · intro e he
        simp only [List.mem_singleton] at he
        subst he; rfl
      · intro cb2 a2 d2 hle
        refine ih cb2 a2 d2 ?_
        have h1w : ({ cb.ar_state with numeric_host_inet := false } : StateBits).weight <
            cb.ar_state.weight := weight_lt_clear_nh4 h
        have hle2 : cb2.ar_state.weight ≤
            ({ cb.ar_state with numeric_host_inet := false } : StateBits).weight := hle
        omega
    · rw [heq]
      exact ⟨[], _, rfl, by simp, Or.inl ⟨_, _, _, rfl⟩⟩
    · rw [heq]
      refine contStep_shape _ _ ?_ _ _
        (host_callback_stepSpec env (env.dns d) _ a (d + 1)) ?_
      · intro e he
        simp only [List.mem_cons, List.mem_singleton, List.not_mem_nil,
          or_false] at he
        rcases he with rfl | rfl
        · rfl
        · rfl
      · intro cb2 a2 d2 hle
        refine ih cb2 a2 d2 ?_
        have h1w : ({ cb.ar_state with host_inet6 := false } : StateBits).weight <
            cb.ar_state.weight := weight_lt_clear_h6 h
        have hle2 : cb2.ar_state.weight ≤
            ({ cb.ar_state with host_inet6 := false } : StateBits).weight := hle
        omega
    · rw [heq]
      refine contStep_shape _ _ ?_ _ _
        (host_callback_stepSpec env (env.dns d) _ a (d + 1)) ?_
      · intro e he
        simp only [List.mem_cons, List.mem_singleton, List.not_mem_nil,
          or_false] at he
        rcases he with rfl | rfl
        · rfl
        · rfl
      · intro cb2 a2 d2 hle
        refine ih cb2 a2 d2 ?_
        have h1w : ({ cb.ar_state with host_inet := false } : StateBits).weight <
            cb.ar_state.weight := weight_lt_clear_h4 h
        have hle2 : cb2.ar_state.weight ≤
            ({ cb.ar_state with host_inet := false } : StateBits).weight := hle
        omega
    · rw [heq]
      refine contStep_shape _ _ ?_ _ _ (find_canonical_stepSpec env _ a d) ?_
      · intro e he
        simp only [List.mem_singleton] at he
        subst he; rfl
      · intro cb2 a2 d2 hle
        refine ih cb2 a2 d2 ?_
        have h1w : ({ cb.ar_state with canonical := false } : StateBits).weight <
            cb.ar_state.weight := weight_lt_clear_canon h
        have hle2 : cb2.ar_state.weight ≤
            ({ cb.ar_state with canonical := false } : StateBits).weight := hle
        omega
    · rw [heq]
      refine contStep_shape _ _ ?_ _ _ (try_serv_strtol_stepSpec env _ a d) ?_
      · intro e he
        simp only [List.mem_singleton] at he
        subst he; rfl
      · intro cb2 a2 d2 hle
        refine ih cb2 a2 d2 ?_
        have h1w : ({ cb.ar_state with numeric_serv := false } : StateBits).weight <
            cb.ar_state.weight := weight_lt_clear_nserv h
        have hle2 : cb2.ar_state.weight ≤
            ({ cb.ar_state with numeric_serv := false } : StateBits).weight := hle
        omega
    · rw [heq]
      exact ⟨[], _, rfl, by simp, Or.inl ⟨_, _, _, rfl⟩⟩
    · rw [heq]
      refine contStep_shape _ _ ?_ _ _ (resolve_serv_stepSpec env _ a d) ?_
      · intro e he
        simp only [List.mem_singleton] at he
        subst he; rfl
      · intro cb2 a2 d2 hle
        refine ih cb2 a2 d2 ?_
        have h1w : ({ cb.ar_state with serv := false } : StateBits).weight <
            cb.ar_state.weight := weight_lt_clear_serv h
        have hle2 : cb2.ar_state.weight ≤
            ({ cb.ar_state with serv := false } : StateBits).weight := hle
        omega
    · rw [heq]
      exact ⟨[], _, rfl, by simp, Or.inl ⟨_, _, _, rfl⟩⟩
    · rw [heq]
      exact ⟨[], _, rfl, by simp, Or.inl ⟨_, _, _, rfl⟩⟩

/- --- Trace algebra --- -/

theorem ghost_not_cb {e : Event} (h : e.isGhost = true) : e.isCb = false := by
  cases e <;> simp_all [Event.isGhost, Event.isCb]

theorem ghost_not_free {e : Event} (h : e.isGhost = true) : e.isFree = false := by
  cases e <;> simp_all [Event.isGhost, Event.isFree]

theorem cbCount_append (l1 l2 : List Event) :
    cbCount (l1 ++ l2) = cbCount l1 + cbCount l2 := by
  simp [cbCount, List.filter_append]

theorem freeCount_append (l1 l2 : List Event) :
    freeCount (l1 ++ l2) = freeCount l1 + freeCount l2 := by
  simp [freeCount, List.filter_append]

theorem cbCount_ghost {l : List Event} (h : ∀ e ∈ l, e.isGhost = true) :
    cbCount l = 0 := by
  induction l with
  | nil => rfl
  | cons x tl ih =>
    have hx := ghost_not_cb (h x (List.mem_cons_self _ _))
    have htl := ih (fun e he => h e (List.mem_cons_of_mem _ he))
    simp only [cbCount, List.filter_cons, hx, Bool.false_eq_true, if_false]
    exact htl

theorem freeCount_ghost {l : List Event} (h : ∀ e ∈ l, e.isGhost = true) :
    freeCount l = 0 := by
  induction l with
  | nil => rfl
  | cons x tl ih =>
    have hx := ghost_not_free (h x (List.mem_cons_self _ _))
    have htl := ih (fun e he => h e (List.mem_cons_of_mem _ he))
    simp only [freeCount, List.filter_cons, hx, Bool.false_eq_true, if_false]
    exact htl

theorem noFreeBeforeCb_ghost_append {l : List Event}
    (h : ∀ e ∈ l, e.isGhost = true) (rest : List Event) :
    noFreeBeforeCb (l ++ rest) = noFreeBeforeCb rest := by
  induction l with
  | nil => rfl
  | cons x tl ih =>
    have hx := h x (List.mem_cons_self _ _)
    have htl := ih (fun e he => h e (List.mem_cons_of_mem _ he))
    cases x <;> simp_all [Event.isGhost, noFreeBeforeCb]

theorem noUndef_append (l1 l2 : List Event) :
    noUndef (l1 ++ l2) = (noUndef l1 && noUndef l2) := by
  induction l1 with
  | nil => simp [noUndef]
  | cons x tl ih => cases x <;> simp [noUndef, ih]

theorem firstCbTimeouts_ghost_append {l : List Event}
    (h : ∀ e ∈ l, e.isGhost = true) (rest : List Event) :
    firstCbTimeouts (l ++ rest) = firstCbTimeouts rest := by
  induction l with
  | nil => rfl
  | cons x tl ih =>
    have hx := h x (List.mem_cons_self _ _)
    have htl := ih (fun e he => h e (List.mem_cons_of_mem _ he))
    cases x <;> simp_all [Event.isGhost, firstCbTimeouts]

theorem sumHostTimeouts_append (l1 l2 : List Event) :
    sumHostTimeouts (l1 ++ l2) =
      sumHostTimeouts l1 + sumHostTimeouts l2 := by
  induction l1 with
  | nil => simp [sumHostTimeouts]
  | cons x tl ih =>
    cases x <;> simp [sumHostTimeouts, ih] <;> omega

/-- The bitmask has seven bits, so its weight is always below `FUEL`. -/
theorem StateBits.weight_lt_FUEL (s : StateBits) : s.weight < FUEL := by
  cases s
  rename_i a b c d e f g
  cases a <;> cases b <;> cases c <;> cases d <;> cases e <;>
    cases f <;> cases g <;> decide

/-- C1 (amended): in every execution that does not reach the null
dereference of the canonical-name copy, the user callback is invoked
exactly once and the request context is released at most once, after (or
as part of) the callback — except on the string-copy allocation failure
path in `start`, where `free_gaicb` runs immediately *before* the
callback. -/
theorem C1_callback_exactly_once (env : Env) (chn : Bool)
    (node service : Option String) (hintsOpt : Option Hints)
    (hu : noUndef (ares_getaddrinfo env chn node service hintsOpt) = true) :
    cbCount (ares_getaddrinfo env chn node service hintsOpt) = 1 ∧
    freeCount (ares_getaddrinfo env chn node service hintsOpt) ≤ 1 ∧
    (noFreeBeforeCb (ares_getaddrinfo env chn node service hintsOpt) = true ∨
      (env.alloc 0 = true ∧ startStrdupFails env node service = true)) := by
  revert hu
  simp only [ares_getaddrinfo]
  split
  · intro _; exact ⟨rfl, by decide, Or.inl rfl⟩
  · split
    · intro _; exact ⟨rfl, by decide, Or.inl rfl⟩
    · split
      · intro _; exact ⟨rfl, by decide, Or.inl rfl⟩
      · split
        · intro _; exact ⟨rfl, by decide, Or.inl rfl⟩
        · split
          · -- start
            simp only [start]
            split
            · rename_i halloc
              split
              · rename_i hcond
                intro _
                exact ⟨rfl, by decide, Or.inr ⟨halloc, hcond⟩⟩
              · intro hu
                obtain ⟨pre, term, heq, hg, ht⟩ :=
                  nextState_shape env FUEL _ _ 0
                    (StateBits.weight_lt_FUEL _)
                rw [heq] at hu ⊢
                rcases ht with ⟨s, t, r, rfl⟩ | rfl
                · refine ⟨?_, ?_, Or.inl ?_⟩
                  · rw [cbCount_append, cbCount_ghost hg]
                    simp [cbCount, Event.isCb]
                  · rw [freeCount_append, freeCount_ghost hg]
                    simp [freeCount, Event.isFree]
                  · rw [noFreeBeforeCb_ghost_append hg]
                    simp [noFreeBeforeCb]
                · rw [noUndef_append] at hu
                  simp [noUndef] at hu
            · intro _
              exact ⟨rfl, by decide, Or.inl rfl⟩
          · intro _
            exact ⟨rfl, by decide, Or.inl rfl⟩

/-- Witness for C1 at a concrete benign input. -/
theorem C1_callback_exactly_once_witness :
    cbCount (ares_getaddrinfo envW false (some "a") none none) = 1 ∧
    freeCount (ares_getaddrinfo envW false (some "a") none none) ≤ 1 ∧
    (noFreeBeforeCb (ares_getaddrinfo envW false (some "a") none none) = true ∨
      (envW.alloc 0 = true ∧
        startStrdupFails envW (some "a") none = true)) :=
  C1_callback_exactly_once envW false (some "a") none none (by decide)

/-- C1 counterexample: when the request context allocates but the node
string copy fails, `start` calls `free_gaicb` *before* the callback: the
trace is `[free, cb ENOMEM]`, so the context is released before the single
callback, refuting the claimed ordering. -/
theorem C1_counterexample :
    ares_getaddrinfo envC1 false (some "n") none none =
      [.free, .cb ARES_ENOMEM 0 []] ∧
    cbCount (ares_getaddrinfo envC1 false (some "n") none none) = 1 ∧
    noFreeBeforeCb (ares_getaddrinfo envC1 false (some "n") none none) = false := by
  refine ⟨by decide, by decide, by decide⟩

/- --- C6: all host work precedes any service work --- -/

theorem contStep_mem {rec : Gaicb → Nat → Nat → List Event} {gs : List Event}
    {out : StepOut} {e : Event} (he : e ∈ contStep rec gs out) :
    e ∈ gs ∨ (∃ tr, out = .halt tr ∧ e ∈ tr) ∨
      (∃ cb2 a2 d2, out = .next cb2 a2 d2 ∧ e ∈ rec cb2 a2 d2) := by
  cases out with
  | halt tr =>
    rcases List.mem_append.mp he with h | h
    · exact Or.inl h
    · exact Or.inr (Or.inl ⟨tr, rfl, h⟩)
  | next cb2 a2 d2 =>
    rcases List.mem_append.mp he with h | h
    · exact Or.inl h
    · exact Or.inr (Or.inr ⟨cb2, a2, d2, rfl, h⟩)

theorem Terminal_no_step {tr : List Event} (ht : Terminal tr) {name : StepName}
    {st : StateBits} (hm : Event.step name st ∈ tr) : False := by
  rcases ht with ⟨s, t, r, rfl⟩ | rfl <;> simp at hm

/-- Inside the dispatcher, a service-step dispatch event always records a
state whose four host bits are all clear. -/
theorem nextState_serv_steps (env : Env) :
    ∀ fuel (cb : Gaicb) (a d : Nat) (st : StateBits) (name : StepName),
      (name = .serv_strtol ∨ name = .serv_resolve) →
      Event.step name st ∈ nextState env fuel cb a d → st.anyHost = false := by
  intro fuel
  induction fuel with
  | zero =>
    intro cb a d st name _ hm
    simp [nextState] at hm
  | succ fuel ih =>
    intro cb a d st name hn hm
    rcases nextState_succ_cases env fuel cb a d with
      ⟨h, heq⟩ | ⟨h1, h, heq⟩ | ⟨h1, h2, h3, heq⟩ | ⟨h1, h2, h3, h, heq⟩ |
      ⟨h1, h2, h3, h4, h, heq⟩ | ⟨h1, h2, h3, h4, h5, h, heq⟩ |
      ⟨h1, h2, h3, h4, h5, h6, h, heq⟩ |
      ⟨h1, h2, h3, h4, h5, h6, h7, h8, heq⟩ |
      ⟨h1, h2, h3, h4, h5, h6, h7, h8, h, heq⟩ |
      ⟨h1, h2, h3, h4, h5, h6, h7, h8, h9, h10, heq⟩ |
      ⟨h1, h2, h3, h4, h5, h6, h7, h8, h9, h10, heq⟩
    · rw [heq] at hm
      rcases contStep_mem hm with hg | ⟨tr, hout, htr⟩ | ⟨cb2, a2, d2, hout, hrec⟩
      · rcases hn with rfl | rfl <;> simp at hg
      · have hsp := try_pton_inet6_stepSpec env
          { cb with ar_state := { cb.ar_state with numeric_host_inet6 := false } } a d
        rw [hout] at hsp
        exact (Terminal_no_step hsp.1 htr).elim
      · exact ih cb2 a2 d2 st name hn hrec
    · rw [heq] at hm
      rcases contStep_mem hm with hg | ⟨tr, hout, htr⟩ | ⟨cb2, a2, d2, hout, hrec⟩
      · rcases hn with rfl | rfl <;> simp at hg
      · have hsp := try_pton_inet_stepSpec env
          { cb with ar_state := { cb.ar_state with numeric_host_inet := false } } a d
        rw [hout] at hsp
        exact (Terminal_no_step hsp.1 htr).elim
      · exact ih cb2 a2 d2 st name hn hrec
    · rw [heq] at hm
      simp at hm
    · rw [heq] at hm
      rcases contStep_mem hm with hg | ⟨tr, hout, htr⟩ | ⟨cb2, a2, d2, hout, hrec⟩
      · rcases hn with rfl | rfl <;> simp at hg
      · have hsp := host_callback_stepSpec env (env.dns d)
          { cb with ar_state := { cb.ar_state with host_inet6 := false } } a (d + 1)
        rw [hout] at hsp
        exact (Terminal_no_step hsp.1 htr).elim
      · exact ih cb2 a2 d2 st name hn hrec
    · rw [heq] at hm
      rcases contStep_mem hm with hg | ⟨tr, hout, htr⟩ | ⟨cb2, a2, d2, hout, hrec⟩
      · rcases hn with rfl | rfl <;> simp at hg
      · have hsp := host_callback_stepSpec env (env.dns d)
          { cb with ar_state := { cb.ar_state with host_inet := false } } a (d + 1)
        rw [hout] at hsp
        exact (Terminal_no_step hsp.1 htr).elim
      · exact ih cb2 a2 d2 st name hn hrec
    · rw [heq] at hm
      rcases contStep_mem hm with hg | ⟨tr, hout, htr⟩ | ⟨cb2, a2, d2, hout, hrec⟩
      · rcases hn with rfl | rfl <;> simp at hg
      · have hsp := find_canonical_stepSpec env
          { cb with ar_state := { cb.ar_state with canonical := false } } a d
        rw [hout] at hsp
        exact (Terminal_no_step hsp.1 htr).elim
      · exact ih cb2 a2 d2 st name hn hrec
    · rw [heq] at hm
      rcases contStep_mem hm with hg | ⟨tr, hout, htr⟩ | ⟨cb2, a2, d2, hout, hrec⟩
      · simp only [List.mem_singleton, Event.step.injEq] at hg
        rw [hg.2]
        simp [StateBits.anyHost, h1, h2, h4, h5]
      · have hsp := try_serv_strtol_stepSpec env
          { cb with ar_state := { cb.ar_state with numeric_serv := false } } a d
        rw [hout] at hsp
        exact (Terminal_no_step hsp.1 htr).elim
      · exact ih cb2 a2 d2 st name hn hrec
    · rw [heq] at hm
      simp at hm
    · rw [heq] at hm
      rcases contStep_mem hm with hg | ⟨tr, hout, htr⟩ | ⟨cb2, a2, d2, hout, hrec⟩
      · simp only [List.mem_singleton, Event.step.injEq] at hg
        rw [hg.2]
        simp [StateBits.anyHost, h1, h2, h4, h5]
      · have hsp := resolve_serv_stepSpec env
          { cb with ar_state := { cb.ar_state with serv := false } } a d
        rw [hout] at hsp
        exact (Terminal_no_step hsp.1 htr).elim
      · exact ih cb2 a2 d2 st name hn hrec
    · rw [heq] at hm
      simp at hm
    · rw [heq] at hm
      simp at hm

/-- C6: in every execution, no service step (`try_serv_strtol` or
`resolve_serv`) is dispatched while any of the four host bits is still
set: the state recorded at every service-step dispatch has
`anyHost = false`, so all host work completes before any service work. -/
theorem C6_host_work_before_service (env : Env) (chn : Bool)
    (node service : Option String) (hintsOpt : Option Hints)
    (st : StateBits) (name : StepName)
    (hn : name = .serv_strtol ∨ name = .serv_resolve)
    (hm : Event.step name st ∈ ares_getaddrinfo env chn node service hintsOpt) :
    st.anyHost = false := by
  revert hm
  simp only [ares_getaddrinfo]
  split
  · intro hm; simp at hm
  · split
    · intro hm; simp at hm
    · split
      · intro hm; simp at hm
      · split
        · intro hm; simp at hm
        · split
          · simp only [start]
            split
            · split
              · intro hm; simp at hm
              · exact nextState_serv_steps env FUEL _ _ 0 st name hn
            · intro hm; simp at hm
          · intro hm; simp at hm

/-- Witness for C6: a concrete run whose numeric-service step is
dispatched with the host bits clear. -/
theorem C6_host_work_before_service_witness :
    ({ serv := true } : StateBits).anyHost = false :=
  C6_host_work_before_service envW false none (some "80") none
    { serv := true } .serv_strtol (Or.inl rfl) (by decide)

/- --- C3: timeouts accounting --- -/

theorem Terminal_sumHostTimeouts {tr : List Event} (ht : Terminal tr) :
    sumHostTimeouts tr = 0 := by
  rcases ht with ⟨s, t, r, rfl⟩ | rfl <;> simp [sumHostTimeouts]

theorem Terminal_firstCbTimeouts {tr : List Event} (ht : Terminal tr) :
    ∀ t, firstCbTimeouts tr = some t →
      ∃ s r, tr = [Event.cb s t r, Event.free] := by
  rcases ht with ⟨s, t0, r, rfl⟩ | rfl
  · intro t h
    simp [firstCbTimeouts] at h
    subst h
    exact ⟨s, r, rfl⟩
  · intro t h
    simp [firstCbTimeouts] at h

theorem contStep_timeouts {rec : Gaicb → Nat → Nat → List Event}
    {gs : List Event} (hg : ∀ e ∈ gs, e.isGhost = true)
    {out : StepOut} {cbIn : Gaicb} (hspec : StepSpec cbIn out)
    (base : Nat) (hbase : cbIn.ar_timeouts = base + sumHostTimeouts gs)
    (IH : ∀ cb2 a2 d2, cb2.ar_state.weight ≤ cbIn.ar_state.weight →
      ∀ t, firstCbTimeouts (rec cb2 a2 d2) = some t →
        t = cb2.ar_timeouts + sumHostTimeouts (rec cb2 a2 d2) ∨ t = 0) :
    ∀ t, firstCbTimeouts (contStep rec gs out) = some t →
      t = base + sumHostTimeouts (contStep rec gs out) ∨ t = 0 := by
  intro t h
  cases out with
  | halt tr =>
    rw [show contStep rec gs (.halt tr) = gs ++ tr from rfl] at h ⊢
    rw [sumHostTimeouts_append]
    rw [firstCbTimeouts_ghost_append hg] at h
    obtain ⟨s, r, rfl⟩ := Terminal_firstCbTimeouts hspec.1 t h
    have h0 : sumHostTimeouts [Event.cb s t r, Event.free] = 0 := rfl
    rcases hspec.2 s t r rfl with h' | h'
    · left
      rw [h0]
      omega
    · exact Or.inr h'
  | next cb2 a2 d2 =>
    rw [show contStep rec gs (.next cb2 a2 d2) = gs ++ rec cb2 a2 d2 from rfl] at h ⊢
    rw [sumHostTimeouts_append]
    rw [firstCbTimeouts_ghost_append hg] at h
    obtain ⟨hwle, hteq, _, _, _⟩ := hspec
    rcases IH cb2 a2 d2 hwle t h with h' | h'
    · left
      rw [hteq, hbase] at h'
      omega
    · exact Or.inr h'

/-- Inside the dispatcher, the terminal callback reports either the
accumulated timeouts (entry accumulator plus all host-callback deliveries
of this trace) or the literal 0. -/
theorem nextState_timeouts (env : Env) :
    ∀ fuel (cb : Gaicb) (a d : Nat), cb.ar_state.weight < fuel →
      ∀ t, firstCbTimeouts (nextState env fuel cb a d) = some t →
        t = cb.ar_timeouts + sumHostTimeouts (nextState env fuel cb a d) ∨
        t = 0 := by
  intro fuel
  induction fuel with
  | zero => intro cb a d hw; exact absurd hw (Nat.not_lt_zero _)
  | succ fuel ih =>
    intro cb a d hw
    rcases nextState_succ_cases env fuel cb a d with
      ⟨h, heq⟩ | ⟨h1, h, heq⟩ | ⟨h1, h2, h3, heq⟩ | ⟨h1, h2, h3, h, heq⟩ |
      ⟨h1, h2, h3, h4, h, heq⟩ | ⟨h1, h2, h3, h4, h5, h, heq⟩ |
      ⟨h1, h2, h3, h4, h5, h6, h, heq⟩ |
      ⟨h1, h2, h3, h4, h5, h6, h7, h8, heq⟩ |
      ⟨h1, h2, h3, h4, h5, h6, h7, h8, h, heq⟩ |
      ⟨h1, h2, h3, h4, h5, h6, h7, h8, h9, h10, heq⟩ |
      ⟨h1, h2, h3, h4, h5, h6, h7, h8, h9, h10, heq⟩
    · rw [heq]
      refine contStep_timeouts ?_ (try_pton_inet6_stepSpec env _ a d)
        cb.ar_timeouts (by simp [sumHostTimeouts]) ?_
      · intro e he
        simp only [List.mem_singleton] at he
        subst he; rfl
      · intro cb2 a2 d2 hle t ht
        refine ih cb2 a2 d2 ?_ t ht
        have h1w : ({ cb.ar_state with numeric_host_inet6 := false } : StateBits).weight <
            cb.ar_state.weight := weight_lt_clear_nh6 h
        have hle2 : cb2.ar_state.weight ≤
            ({ cb.ar_state with numeric_host_inet6 := false } : StateBits).weight := hle
        omega
    · rw [heq]
      refine contStep_timeouts ?_ (try_pton_inet_stepSpec env _ a d)
        cb.ar_timeouts (by simp [sumHostTimeouts]) ?_
      · intro e he
        simp only [List.mem_singleton] at he
        subst he; rfl
      · intro cb2 a2 d2 hle t ht
        refine ih cb2 a2 d2 ?_ t ht
        have h1w : ({ cb.ar_state with numeric_host_inet := false } : StateBits).weight <
            cb.ar_state.weight := weight_lt_clear_nh4 h
        have hle2 : cb2.ar_state.weight ≤
            ({ cb.ar_state with numeric_host_inet := false } : StateBits).weight := hle
        omega
    · rw [heq]
      intro t ht
      simp [firstCbTimeouts] at ht
      omega
    · rw [heq]
      refine contStep_timeouts ?_
        (host_callback_stepSpec env (env.dns d) _ a (d + 1))
        cb.ar_timeouts (by simp [sumHostTimeouts]) ?_
      · intro e he
        simp only [List.mem_cons, List.mem_singleton, List.not_mem_nil,
          or_false] at he
        rcases he with rfl | rfl
        · rfl
        · rfl
      · intro cb2 a2 d2 hle t ht
        refine ih cb2 a2 d2 ?_ t ht
        have h1w : ({ cb.ar_state with host_inet6 := false } : StateBits).weight <
            cb.ar_state.weight := weight_lt_clear_h6 h
        have hle2 : cb2.ar_state.weight ≤
            ({ cb.ar_state with host_inet6 := false } : StateBits).weight := hle
        omega
    · rw [heq]
      refine contStep_timeouts ?_
        (host_callback_stepSpec env (env.dns d) _ a (d + 1))
        cb.ar_timeouts (by simp [sumHostTimeouts]) ?_
      · intro e he
        simp only [List.mem_cons, List.mem_singleton, List.not_mem_nil,
          or_false] at he
        rcases he with rfl | rfl
        · rfl
        · rfl
      · intro cb2 a2 d2 hle t ht
        refine ih cb2 a2 d2 ?_ t ht
        have h1w : ({ cb.ar_state with host_inet := false } : StateBits).weight <
            cb.ar_state.weight := weight_lt_clear_h4 h
        have hle2 : cb2.ar_state.weight ≤
            ({ cb.ar_state with host_inet := false } : StateBits).weight := hle
        omega
    · rw [heq]
      refine contStep_timeouts ?_ (find_canonical_stepSpec env _ a d)
        cb.ar_timeouts (by simp [sumHostTimeouts]) ?_
      · intro e he
        simp only [List.mem_singleton] at he
        subst he; rfl
      · intro cb2 a2 d2 hle t ht
        refine ih cb2 a2 d2 ?_ t ht
        have h1w : ({ cb.ar_state with canonical := false } : StateBits).weight <
            cb.ar_state.weight := weight_lt_clear_canon h
        have hle2 : cb2.ar_state.weight ≤
            ({ cb.ar_state with canonical := false } : StateBits).weight := hle
        omega
    · rw [heq]
      refine contStep_timeouts ?_ (try_serv_strtol_stepSpec env _ a d)
        cb.ar_timeouts (by simp [sumHostTimeouts]) ?_
      · intro e he
        simp only [List.mem_singleton] at he
        subst he; rfl
      · intro cb2 a2 d2 hle t ht
        refine ih cb2 a2 d2 ?_ t ht
        have h1w : ({ cb.ar_state with numeric_serv := false } : StateBits).weight <
            cb.ar_state.weight := weight_lt_clear_nserv h
        have hle2 : cb2.ar_state.weight ≤
            ({ cb.ar_state with numeric_serv := false } : StateBits).weight := hle
        omega
    · rw [heq]
      intro t ht
      simp [firstCbTimeouts] at ht
      omega
    · rw [heq]
      refine contStep_timeouts ?_ (resolve_serv_stepSpec env _ a d)
        cb.ar_timeouts (by simp [sumHostTimeouts]) ?_
      · intro e he
        simp only [List.mem_singleton] at he
        subst he; rfl
      · intro cb2 a2 d2 hle t ht
        refine ih cb2 a2 d2 ?_ t ht
        have h1w : ({ cb.ar_state with serv := false } : StateBits).weight <
            cb.ar_state.weight := weight_lt_clear_serv h
        have hle2 : cb2.ar_state.weight ≤
            ({ cb.ar_state with serv := false } : StateBits).weight := hle
        omega
    · rw [heq]
      intro t ht
      simp [firstCbTimeouts] at ht
      simp [sumHostTimeouts]
      omega
    · rw [heq]
      intro t ht
      simp [firstCbTimeouts] at ht
      omega

/-- C3 (amended): the terminal callback's `timeouts` argument is either
the accumulated sum of the `timeouts` values delivered by this request's
host-callback invocations, or the literal `0`: `host_callback` failures,
allocation failures inside it, the canonical/service failures and the
`SUCCESS` completion report the accumulated sum, while the `ENONAME`
failures raised by `next_state` for `AI_NUMERICHOST`/`AI_NUMERICSERV`,
the `EFORMERR` failure, and the numeric-host-step `ENOMEM` failures pass
the literal 0 — which can differ from the accumulated sum. -/
theorem C3_timeouts_reported (env : Env) (chn : Bool)
    (node service : Option String) (hintsOpt : Option Hints) (t : Nat)
    (h : firstCbTimeouts (ares_getaddrinfo env chn node service hintsOpt) =
      some t) :
    t = sumHostTimeouts (ares_getaddrinfo env chn node service hintsOpt) ∨
    t = 0 := by
  revert h
  simp only [ares_getaddrinfo]
  split
  · intro h; simp [firstCbTimeouts] at h; omega
  · split
    · intro h; simp [firstCbTimeouts] at h; omega
    · split
      · intro h; simp [firstCbTimeouts] at h; omega
      · split
        · intro h; simp [firstCbTimeouts] at h; omega
        · split
          · simp only [start]
            split
            · split
              · intro h; simp [firstCbTimeouts] at h; omega
              · intro h
                rcases nextState_timeouts env FUEL _ _ 0
                    (StateBits.weight_lt_FUEL _) t h with h' | h'
                · left; simpa using h'
                · exact Or.inr h'
            · intro h; simp [firstCbTimeouts] at h; omega
          · intro h; simp [firstCbTimeouts] at h; omega

/-- Witness for C3 at a concrete input. -/
theorem C3_timeouts_reported_witness :
    (0 : Nat) = sumHostTimeouts (ares_getaddrinfo envW true none (some "80") none) ∨
    (0 : Nat) = 0 :=
  C3_timeouts_reported envW true none (some "80") none 0 (by decide)

/-- C3 counterexample: with `AI_NUMERICSERV` and a symbolic service, after
a DNS completion that delivered 5 timeouts, the `ENONAME` failure raised
by `next_state` reports the literal 0, not the accumulated 5. -/
theorem C3_counterexample :
    firstCbTimeouts
        (ares_getaddrinfo envC3 false (some "x") (some "http")
          (some hintsNumServ)) = some 0 ∧
    sumHostTimeouts
        (ares_getaddrinfo envC3 false (some "x") (some "http")
          (some hintsNumServ)) = 5 ∧
    cbCount
        (ares_getaddrinfo envC3 false (some "x") (some "http")
          (some hintsNumServ)) = 1 ∧
    (5 : Nat) ≠ 0 := by
  refine ⟨by decide, by decide, by decide, by decide⟩

/-- C4 (amended): on a successful lookup `host_callback` clears the pending
bit of the family *returned* in the hostent, not the family queried; after
an `AF_INET6` success, `HOST_INET` is additionally cleared exactly when the
hints family is `INET6`, `AI_ALL` is unset, **and the reply's address list
is non-empty**; with an empty list (or `AI_ALL`, or another family)
`HOST_INET` is left unchanged. -/
theorem C4_host_callback_family_bits (env : Env) (reply : HostReply)
    (cb : Gaicb) (a d : Nat) (cb' : Gaicb) (a' d' : Nat)
    (h : host_callback env reply cb a d = .next cb' a' d')
    (hs : reply.status = ARES_SUCCESS) :
    (reply.hostent.h_addrtype = AF_INET →
      cb'.ar_state.host_inet = false ∧
      cb'.ar_state.host_inet6 = cb.ar_state.host_inet6) ∧
    (reply.hostent.h_addrtype = AF_INET6 →
      cb'.ar_state.host_inet6 = false ∧
      (cb.ar_hints.ai_family = AF_INET6 → reply.hostent.h_addr_list ≠ [] →
        cb.ar_hints.ai_flags.all = false → cb'.ar_state.host_inet = false) ∧
      (¬(cb.ar_hints.ai_family = AF_INET6 ∧ reply.hostent.h_addr_list ≠ [] ∧
         cb.ar_hints.ai_flags.all = false) →
        cb'.ar_state.host_inet = cb.ar_state.host_inet)) := by
  simp only [host_callback, hs, ne_eq, not_true_eq_false, if_false] at h
  constructor
  · intro h4
    rw [if_pos h4] at h
    unfold host_callback_inet at h
    cases hadd : addInetNodes env cb.ar_hints reply.hostent.h_addr_list cb.ar_result a with
    | none => rw [hadd] at h; simp at h
    | some p =>
      obtain ⟨res, a2⟩ := p
      rw [hadd] at h
      rw [host_canonical_state h]
      exact ⟨rfl, rfl⟩
  · intro h6
    have h4 : reply.hostent.h_addrtype ≠ AF_INET := by
      rw [h6]; decide
    rw [if_neg h4, if_pos h6] at h
    unfold host_callback_inet6 at h
    cases hadd : addInet6Nodes env cb.ar_hints reply.hostent.h_addr_list cb.ar_result a with
    | none => rw [hadd] at h; simp at h
    | some p =>
      obtain ⟨res, a2⟩ := p
      rw [hadd] at h
      have hst := host_canonical_state h
      by_cases hcond : cb.ar_hints.ai_family = AF_INET6 ∧
          reply.hostent.h_addr_list ≠ [] ∧ cb.ar_hints.ai_flags.all = false
      · rw [if_pos hcond] at hst
        rw [hst]
        exact ⟨rfl, fun _ _ _ => rfl, fun hc => absurd hcond hc⟩
      · rw [if_neg hcond] at hst
        rw [hst]
        refine ⟨rfl, fun hf hl hall => absurd ⟨hf, hl, hall⟩ hcond, fun _ => rfl⟩

/-- Witness for C4 at a concrete successful `AF_INET` reply. -/
theorem C4_host_callback_family_bits_witness :
    (replyC4.hostent.h_addrtype = AF_INET →
      cbC4.ar_state.host_inet = false ∧
      cbC4.ar_state.host_inet6 = cbC4.ar_state.host_inet6) ∧
    (replyC4.hostent.h_addrtype = AF_INET6 →
      cbC4.ar_state.host_inet6 = false ∧
      (cbC4.ar_hints.ai_family = AF_INET6 → replyC4.hostent.h_addr_list ≠ [] →
        cbC4.ar_hints.ai_flags.all = false → cbC4.ar_state.host_inet = false) ∧
      (¬(cbC4.ar_hints.ai_family = AF_INET6 ∧ replyC4.hostent.h_addr_list ≠ [] ∧
         cbC4.ar_hints.ai_flags.all = false) →
        cbC4.ar_state.host_inet = cbC4.ar_state.host_inet)) :=
  C4_host_callback_family_bits envW replyC4 cbC4 0 0 cbC4 0 0 (by decide) rfl

/-- C4 counterexample: an `AF_INET6` SUCCESS reply with an *empty* address
list, hints family `INET6` (with `AI_V4MAPPED`), `AI_ALL` unset — the
claim says `HOST_INET` is also cleared, but the code leaves it set (so an
IPv4 query is still issued afterwards). -/
theorem C4_counterexample :
    host_callback envW replyC4 cbC4 0 0 = .next cbC4 0 0 ∧
    replyC4.status = ARES_SUCCESS ∧
    replyC4.hostent.h_addrtype = AF_INET6 ∧
    cbC4.ar_hints.ai_family = AF_INET6 ∧
    cbC4.ar_hints.ai_flags.all = false ∧
    cbC4.ar_state.host_inet = true := by
  refine ⟨by decide, rfl, rfl, rfl, rfl, rfl⟩

/-- C5 (amended): when `try_pton_inet` parses (or defaults) an IPv4
address, the node it prepends has family `INET` — *unless* the hints
family is `INET6` (reachable with `AI_V4MAPPED`), in which case a
v4-mapped `INET6` node is prepended — and both `HOST_INET` and
`HOST_INET6` are cleared; `try_pton_inet6` always prepends an `INET6`
node and clears both bits. -/
theorem C5_pton_prepend (env : Env) (cb : Gaicb) (a d : Nat)
    (cb' : Gaicb) (a' d' : Nat) :
    (((∃ s addr, cb.ar_node = some s ∧ env.pton4 s = some addr) ∨
        cb.ar_node = none) →
      try_pton_inet env cb a d = .next cb' a' d' →
      ∃ n rest, cb'.ar_result = n :: rest ∧ rest = cb.ar_result ∧
        n.ai_family =
          (if cb.ar_hints.ai_family = AF_INET6 then AF_INET6 else AF_INET) ∧
        cb'.ar_state.host_inet = false ∧ cb'.ar_state.host_inet6 = false) ∧
    (((∃ s addr, cb.ar_node = some s ∧ env.pton6 s = some addr) ∨
        cb.ar_node = none) →
      try_pton_inet6 env cb a d = .next cb' a' d' →
      ∃ n rest, cb'.ar_result = n :: rest ∧ rest = cb.ar_result ∧
        n.ai_family = AF_INET6 ∧
        cb'.ar_state.host_inet = false ∧ cb'.ar_state.host_inet6 = false) := by
  constructor
  · intro hp h
    rcases hp with ⟨s, addr, hs, hp4⟩ | hn
    · simp only [try_pton_inet, hs, hp4, pton_inet_found] at h
      split at h
      · obtain ⟨⟨c, hres⟩, hstate⟩ := pton_finish_next h
        refine ⟨_, _, hres, rfl, ?_, by rw [hstate], by rw [hstate]⟩
        by_cases hf : cb.ar_hints.ai_family = AF_INET6
        · simp [hf, create_addrinfo_v4mapped]
        · simp [hf, create_addrinfo_inet]
      · simp at h
    · simp only [try_pton_inet, hn, pton_inet_found] at h
      split at h
      · obtain ⟨⟨c, hres⟩, hstate⟩ := pton_finish_next h
        refine ⟨_, _, hres, rfl, ?_, by rw [hstate], by rw [hstate]⟩
        by_cases hf : cb.ar_hints.ai_family = AF_INET6
        · simp [hf, create_addrinfo_v4mapped]
        · simp [hf, create_addrinfo_inet]
      · simp at h
  · intro hp h
    rcases hp with ⟨s, addr, hs, hp6⟩ | hn
    · simp only [try_pton_inet6, hs, hp6, pton_inet6_found] at h
      split at h
      · obtain ⟨⟨c, hres⟩, hstate⟩ := pton_finish_next h
        exact ⟨_, _, hres, rfl, rfl, by rw [hstate], by rw [hstate]⟩
      · simp at h
    · simp only [try_pton_inet6, hn, pton_inet6_found] at h
      split at h
      · obtain ⟨⟨c, hres⟩, hstate⟩ := pton_finish_next h
        exact ⟨_, _, hres, rfl, rfl, by rw [hstate], by rw [hstate]⟩
      · simp at h

/-- Witness for C5: the concrete v4-literal parse under `INET6` hints. -/
theorem C5_pton_prepend_witness :
    ∃ n rest, cbC5out.ar_result = n :: rest ∧
      rest = cbC5.ar_result ∧
      n.ai_family =
        (if cbC5.ar_hints.ai_family = AF_INET6 then AF_INET6 else AF_INET) ∧
      cbC5out.ar_state.host_inet = false ∧
      cbC5out.ar_state.host_inet6 = false :=
  (C5_pton_prepend envC5 cbC5 0 0 cbC5out 1 0).1
    (Or.inl ⟨"1.2.3.4", 0x01020304, rfl, by decide⟩) (by decide)

/-- C5 counterexample: with hints family `INET6` and `AI_V4MAPPED`, a
successful IPv4 parse prepends a node of family `INET6` (v4-mapped), not
`INET` as the claim states. -/
theorem C5_counterexample :
    try_pton_inet envC5 cbC5 0 0 = .next cbC5out 1 0 ∧
    (create_addrinfo_v4mapped hintsV6Mapped 0x01020304).ai_family = AF_INET6 ∧
    AF_INET6 ≠ AF_INET := by
  refine ⟨by decide, rfl, by decide⟩

/-- C10: the canonical-name copy in `host_callback` has the unstated
precondition that the chain is non-empty.  First conjunct: a concrete
input (AI_CANONNAME, successful DNS reply with a name but an empty address
list, no earlier step prepended a node) drives the full request into the
null dereference of `cb->ar_result->ai_canonname`.  Second conjunct: the
step is well-defined whenever at least one result node exists. -/
theorem C10_canonical_head_null :
    ares_getaddrinfo envC10 false (some "x") none (some hintsC10) =
      [.step .pton4 { host_inet := true, canonical := true },
       .step .resolve4 { canonical := true }, .hostcb 0, .undef] ∧
    (∀ (env : Env) (reply : HostReply) (cb : Gaicb) (a d : Nat),
      cb.ar_result ≠ [] → (host_callback env reply cb a d).wellDefined) := by
  constructor
  · decide
  · intro env reply cb a d hne
    simp only [host_callback]
    by_cases hst : reply.status ≠ ARES_SUCCESS
    · rw [if_pos hst]
      split
      · trivial
      · simp [StepOut.wellDefined]
    · rw [if_neg hst]
      by_cases h4 : reply.hostent.h_addrtype = AF_INET
      · rw [if_pos h4]
        exact host_callback_inet_wellDefined hne
      · rw [if_neg h4]
        by_cases h6 : reply.hostent.h_addrtype = AF_INET6
        · rw [if_pos h6]
          exact host_callback_inet6_wellDefined hne
        · rw [if_neg h6]
          exact host_canonical_wellDefined hne

/-- Witness for C10's universal part at a concrete non-empty chain. -/
theorem C10_canonical_head_null_witness :
    (host_callback envC10 (envC10.dns 0) cbW8 0 0).wellDefined ∧
    cbW8.ar_result ≠ [] :=
  ⟨(C10_canonical_head_null).2 envC10 (envC10.dns 0) cbW8 0 0 (by decide),
   by decide⟩

/- --- C2: a SUCCESS callback never passes an empty chain --- -/

theorem isEmpty_anyHost {s : StateBits} (h : s.isEmpty = true) :
    s.anyHost = false := by
  simp only [StateBits.isEmpty, Bool.and_eq_true, Bool.not_eq_true'] at h
  obtain ⟨⟨⟨⟨⟨⟨-, -⟩, hh4⟩, hh6⟩, hnh4⟩, hnh6⟩, -⟩ := h
  simp [StateBits.anyHost, hh4, hh6, hnh4, hnh6]

theorem serv_stamp_error {env : Env} {service : String} :
    ∀ {l : List Node} {e : Nat}, serv_stamp env service l = .error e →
      e = ARES_EBADHINTS ∨ e = ARES_ENONAME ∨ e = ARES_EBADFAMILY := by
  intro l
  induction l with
  | nil => intro e h; simp [serv_stamp] at h
  | cons n rest ih =>
    intro e h
    cases hp : env.protoByNumber n.ai_protocol with
    | none =>
      simp only [serv_stamp, hp, Except.error.injEq] at h
      exact Or.inl h.symm
    | some pname =>
      cases hs : env.servByName service pname with
      | none =>
        simp only [serv_stamp, hp, hs, Except.error.injEq] at h
        exact Or.inr (Or.inl h.symm)
      | some sp =>
        by_cases hf : n.ai_family = AF_INET ∨ n.ai_family = AF_INET6
        · simp only [serv_stamp, hp, hs] at h
          rw [if_pos hf] at h
          cases hr : serv_stamp env service rest with
          | error e2 =>
            simp only [hr, Except.error.injEq] at h
            exact h ▸ ih hr
          | ok rest2 => simp [hr] at h
        · simp only [serv_stamp, hp, hs] at h
          rw [if_neg hf] at h
          simp only [Except.error.injEq] at h
          exact Or.inr (Or.inr h.symm)

theorem serv_stamp_ok_length {env : Env} {service : String} :
    ∀ {l l2 : List Node}, serv_stamp env service l = .ok l2 →
      l2.length = l.length := by
  intro l
  induction l with
  | nil =>
    intro l2 h
    simp only [serv_stamp, Except.ok.injEq] at h
    rw [← h]
  | cons n rest ih =>
    intro l2 h
    cases hp : env.protoByNumber n.ai_protocol with
    | none => simp [serv_stamp, hp] at h
    | some pname =>
      cases hs : env.servByName service pname with
      | none => simp [serv_stamp, hp, hs] at h
      | some sp =>
        by_cases hf : n.ai_family = AF_INET ∨ n.ai_family = AF_INET6
        · simp only [serv_stamp, hp, hs] at h
          rw [if_pos hf] at h
          cases hr : serv_stamp env service rest with
          | error e2 => simp [hr] at h
          | ok rest2 =>
            simp only [hr, Except.ok.injEq] at h
            rw [← h]
            simp [ih hr]
        · simp only [serv_stamp, hp, hs] at h
          rw [if_neg hf] at h
          simp at h

theorem addInetNodes_list_ne_nil {env : Env} {hints : Hints}
    {l : List Nat} {acc : List Node} {a : Nat} {res : List Node} {a2 : Nat}
    (h : addInetNodes env hints l acc a = some (res, a2)) (hl : l ≠ []) :
    res ≠ [] := by
  cases l with
  | nil => exact absurd rfl hl
  | cons x rest =>
    simp only [addInetNodes] at h
    split at h
    · exact addInetNodes_ne_nil h (by simp)
    · simp at h

theorem addInet6Nodes_list_ne_nil {env : Env} {hints : Hints}
    {l : List Nat} {acc : List Node} {a : Nat} {res : List Node} {a2 : Nat}
    (h : addInet6Nodes env hints l acc a = some (res, a2)) (hl : l ≠ []) :
    res ≠ [] := by
  cases l with
  | nil => exact absurd rfl hl
  | cons x rest =>
    simp only [addInet6Nodes] at h
    split at h
    · exact addInet6Nodes_ne_nil h (by simp)
    · simp at h

theorem host_canonical_result {env : Env} {he : Hostent} {cb : Gaicb}
    {a d : Nat} {cb2 : Gaicb} {a2 d2 : Nat}
    (h : host_canonical env he cb a d = .next cb2 a2 d2) :
    cb2.ar_result = cb.ar_result ∨ cb2.ar_result ≠ [] := by
  unfold host_canonical at h
  repeat' split at h
  all_goals
    first
      | (cases h; exact Or.inl rfl)
      | (cases h; exact Or.inr (by simp))
      | cases h

theorem host_canonical_halt_status {env : Env} {he : Hostent} {cb : Gaicb}
    {a d : Nat} {tr : List Event}
    (h : host_canonical env he cb a d = .halt tr) :
    ∀ s t r2, Event.cb s t r2 ∈ tr → s ≠ ARES_SUCCESS := by
  unfold host_canonical at h
  repeat' split at h
  all_goals
    first
      | (cases h; intro s t r2 hm; simp at hm; done)
      | (cases h; intro s t r2 hm; simp at hm;
         rcases hm with ⟨rfl, -, -⟩; decide)
      | cases h

theorem try_pton_inet_halt_status {env : Env} {cb : Gaicb} {a d : Nat}
    {tr : List Event} (h : try_pton_inet env cb a d = .halt tr) :
    ∀ s t r2, Event.cb s t r2 ∈ tr → s ≠ ARES_SUCCESS := by
  simp only [try_pton_inet, pton_inet_found, pton_finish] at h
  repeat' split at h
  all_goals
    first
      | (cases h; intro s t r2 hm; simp at hm; done)
      | (cases h; intro s t r2 hm; simp at hm;
         rcases hm with ⟨rfl, -, -⟩; decide)
      | cases h

theorem try_pton_inet6_halt_status {env : Env} {cb : Gaicb} {a d : Nat}
    {tr : List Event} (h : try_pton_inet6 env cb a d = .halt tr) :
    ∀ s t r2, Event.cb s t r2 ∈ tr → s ≠ ARES_SUCCESS := by
  simp only [try_pton_inet6, pton_inet6_found, pton_finish] at h
  repeat' split at h
  all_goals
    first
      | (cases h; intro s t r2 hm; simp at hm; done)
      | (cases h; intro s t r2 hm; simp at hm;
         rcases hm with ⟨rfl, -, -⟩; decide)
      | cases h

theorem pton_inet_found_result {env : Env} {cb : Gaicb} {addr a d : Nat}
    {cb2 : Gaicb} {a2 d2 : Nat}
    (h : pton_inet_found env cb addr a d = .next cb2 a2 d2) :
    cb2.ar_result ≠ [] := by
  unfold pton_inet_found at h
  split at h
  · obtain ⟨⟨c, hres⟩, -⟩ := pton_finish_next h
    rw [hres]; simp
  · cases h

theorem pton_inet6_found_result {env : Env} {cb : Gaicb} {addr a d : Nat}
    {cb2 : Gaicb} {a2 d2 : Nat}
    (h : pton_inet6_found env cb addr a d = .next cb2 a2 d2) :
    cb2.ar_result ≠ [] := by
  unfold pton_inet6_found at h
  split at h
  · obtain ⟨⟨c, hres⟩, -⟩ := pton_finish_next h
    rw [hres]; simp
  · cases h

theorem try_pton_inet_next_c2 {env : Env} {cb : Gaicb} {a d : Nat}
    {cb2 : Gaicb} {a2 d2 : Nat}
    (h : try_pton_inet env cb a d = .next cb2 a2 d2) :
    (cb2 = cb ∧ ∃ s, cb.ar_node = some s) ∨ cb2.ar_result ≠ [] := by
  cases hn : cb.ar_node with
  | none =>
    simp only [try_pton_inet, hn] at h
    exact Or.inr (pton_inet_found_result h)
  | some s =>
    cases hp : env.pton4 s with
    | none =>
      simp only [try_pton_inet, hn, hp] at h
      cases h
      exact Or.inl ⟨rfl, s, rfl⟩
    | some addr =>
      simp only [try_pton_inet, hn, hp] at h
      exact Or.inr (pton_inet_found_result h)

theorem try_pton_inet6_next_c2 {env : Env} {cb : Gaicb} {a d : Nat}
    {cb2 : Gaicb} {a2 d2 : Nat}
    (h : try_pton_inet6 env cb a d = .next cb2 a2 d2) :
    (cb2 = cb ∧ ∃ s, cb.ar_node = some s) ∨ cb2.ar_result ≠ [] := by
  cases hn : cb.ar_node with
  | none =>
    simp only [try_pton_inet6, hn] at h
    exact Or.inr (pton_inet6_found_result h)
  | some s =>
    cases hp : env.pton6 s with
    | none =>
      simp only [try_pton_inet6, hn, hp] at h
      cases h
      exact Or.inl ⟨rfl, s, rfl⟩
    | some addr =>
      simp only [try_pton_inet6, hn, hp] at h
      exact Or.inr (pton_inet6_found_result h)

theorem host_callback_inet_result {env : Env} {he : Hostent} {cb : Gaicb}
    {a d : Nat} {cb2 : Gaicb} {a2 d2 : Nat}
    (h : host_callback_inet env he cb a d = .next cb2 a2 d2)
    (hl : he.h_addr_list ≠ []) : cb2.ar_result ≠ [] := by
  unfold host_callback_inet at h
  cases hadd : addInetNodes env cb.ar_hints he.h_addr_list cb.ar_result a with
  | none => rw [hadd] at h; simp at h
  | some p =>
    obtain ⟨res, a3⟩ := p
    rw [hadd] at h
    have hres : res ≠ [] := addInetNodes_list_ne_nil hadd hl
    rcases host_canonical_result h with he2 | he2
    · rw [he2]; exact hres
    · exact he2

theorem host_callback_inet6_result {env : Env} {he : Hostent} {cb : Gaicb}
    {a d : Nat} {cb2 : Gaicb} {a2 d2 : Nat}
    (h : host_callback_inet6 env he cb a d = .next cb2 a2 d2)
    (hl : he.h_addr_list ≠ []) : cb2.ar_result ≠ [] := by
  unfold host_callback_inet6 at h
  cases hadd : addInet6Nodes env cb.ar_hints he.h_addr_list cb.ar_result a with
  | none => rw [hadd] at h; simp at h
  | some p =>
    obtain ⟨res, a3⟩ := p
    rw [hadd] at h
    have hres : res ≠ [] := addInet6Nodes_list_ne_nil hadd hl
    rcases host_canonical_result h with he2 | he2
    · rw [he2]; exact hres
    · exact he2

theorem host_callback_inet_halt_status {env : Env} {he : Hostent}
    {cb : Gaicb} {a d : Nat} {tr : List Event}
    (h : host_callback_inet env he cb a d = .halt tr) :
    ∀ s t r2, Event.cb s t r2 ∈ tr → s ≠ ARES_SUCCESS := by
  unfold host_callback_inet at h
  cases hadd : addInetNodes env cb.ar_hints he.h_addr_list cb.ar_result a with
  | none =>
    rw [hadd] at h
    cases h
    intro s t r2 hm
    simp at hm
    rcases hm with ⟨rfl, -, -⟩
    decide
  | some p =>
    obtain ⟨res, a3⟩ := p
    rw [hadd] at h
    exact host_canonical_halt_status h

theorem host_callback_inet6_halt_status {env : Env} {he : Hostent}
    {cb : Gaicb} {a d : Nat} {tr : List Event}
    (h : host_callback_inet6 env he cb a d = .halt tr) :
    ∀ s t r2, Event.cb s t r2 ∈ tr → s ≠ ARES_SUCCESS := by
  unfold host_callback_inet6 at h
  cases hadd : addInet6Nodes env cb.ar_hints he.h_addr_list cb.ar_result a with
  | none =>
    rw [hadd] at h
    cases h
    intro s t r2 hm
    simp at hm
    rcases hm with ⟨rfl, -, -⟩
    decide
  | some p =>
    obtain ⟨res, a3⟩ := p
    rw [hadd] at h
    exact host_canonical_halt_status h

theorem host_callback_halt_status {env : Env} {reply : HostReply}
    {cb0 : Gaicb} {a d : Nat} {tr : List Event}
    (h : host_callback env reply cb0 a d = .halt tr) :
    ∀ s t r2, Event.cb s t r2 ∈ tr → s ≠ ARES_SUCCESS := by
  simp only [host_callback] at h
  by_cases h0 : reply.status = ARES_SUCCESS
  · rw [if_neg (not_not_intro h0)] at h
    by_cases h4 : reply.hostent.h_addrtype = AF_INET
    · rw [if_pos h4] at h
      exact host_callback_inet_halt_status h
    · rw [if_neg h4] at h
      by_cases h6 : reply.hostent.h_addrtype = AF_INET6
      · rw [if_pos h6] at h
        exact host_callback_inet6_halt_status h
      · rw [if_neg h6] at h
        exact host_canonical_halt_status h
  · rw [if_pos h0] at h
    split at h
    · cases h
    · cases h
      intro s t r2 hm
      simp at hm
      rcases hm with ⟨rfl, -, -⟩
      exact h0

theorem host_callback_next_c2 {env : Env} {reply : HostReply} {cb0 : Gaicb}
    {a d : Nat} {cb2 : Gaicb} {a2 d2 : Nat}
    (h : host_callback env reply cb0 a d = .next cb2 a2 d2) :
    (reply.status ≠ ARES_SUCCESS ∧ cb2.ar_state = cb0.ar_state ∧
     cb2.ar_result = cb0.ar_result ∧ cb0.ar_state.anyHost = true) ∨
    (reply.status = ARES_SUCCESS ∧
     (((reply.hostent.h_addrtype = AF_INET ∨
        reply.hostent.h_addrtype = AF_INET6) ∧
       reply.hostent.h_addr_list ≠ []) → cb2.ar_result ≠ [])) := by
  simp only [host_callback] at h
  by_cases h0 : reply.status = ARES_SUCCESS
  · rw [if_neg (not_not_intro h0)] at h
    right
    refine ⟨h0, ?_⟩
    rintro ⟨hat, hl⟩
    rcases hat with h4 | h6
    · rw [if_pos h4] at h
      exact host_callback_inet_result h hl
    · have h4 : reply.hostent.h_addrtype ≠ AF_INET := by rw [h6]; decide
      rw [if_neg h4, if_pos h6] at h
      exact host_callback_inet6_result h hl
  · rw [if_pos h0] at h
    split at h
    · cases h
      rename_i hany
      exact Or.inl ⟨h0, rfl, rfl, hany⟩
    · cases h

theorem find_canonical_halt_status {env : Env} {cb : Gaicb} {a d : Nat}
    {tr : List Event} (h : find_canonical env cb a d = .halt tr) :
    ∀ s t r2, Event.cb s t r2 ∈ tr → s ≠ ARES_SUCCESS := by
  unfold find_canonical at h
  repeat' split at h
  all_goals
    first
      | (cases h; intro s t r2 hm; simp at hm; done)
      | (cases h; intro s t r2 hm; simp at hm;
         rcases hm with ⟨rfl, -, -⟩; decide)
      | cases h

theorem find_canonical_result {env : Env} {cb : Gaicb} {a d : Nat}
    {cb2 : Gaicb} {a2 d2 : Nat}
    (h : find_canonical env cb a d = .next cb2 a2 d2) :
    cb2.ar_result = cb.ar_result ∨ cb2.ar_result ≠ [] := by
  unfold find_canonical at h
  repeat' split at h
  all_goals
    first
      | (cases h; exact Or.inl rfl)
      | (cases h; exact Or.inr (by simp))
      | cases h

theorem try_serv_strtol_halt_status {env : Env} {cb : Gaicb} {a d : Nat}
    {tr : List Event} (h : try_serv_strtol env cb a d = .halt tr) :
    ∀ s t r2, Event.cb s t r2 ∈ tr → s ≠ ARES_SUCCESS := by
  unfold try_serv_strtol at h
  repeat' split at h
  all_goals
    first
      | (cases h; intro s t r2 hm; simp at hm; done)
      | (cases h; intro s t r2 hm; simp at hm;
         rcases hm with ⟨rfl, -, -⟩; decide)
      | cases h

theorem try_serv_strtol_result {env : Env} {cb : Gaicb} {a d : Nat}
    {cb2 : Gaicb} {a2 d2 : Nat}
    (h : try_serv_strtol env cb a d = .next cb2 a2 d2)
    (hne : cb.ar_result ≠ []) : cb2.ar_result ≠ [] := by
  cases hsv : cb.ar_service with
  | none => simp [try_serv_strtol, hsv] at h
  | some s =>
    simp only [try_serv_strtol, hsv] at h
    by_cases hc : (strtol10 s).2 = s.length
    · rw [if_neg (not_not_intro hc)] at h
      cases hsp : setup_protocol cb.ar_result with
      | none => simp [hsp] at h
      | some ns =>
        simp only [hsp] at h
        cases hst : stampPorts (htons (strtol10 s).1) ns with
        | none => simp [hst] at h
        | some ns2 =>
          simp only [hst] at h
          cases h
          intro hx
          have hx2 : ns2 = [] := hx
          have hlen2 : ns2.length = ns.length := (stampPorts_spec _ _ _ hst).2
          have hlen1 : ns.length = cb.ar_result.length :=
            setup_protocol_length _ _ hsp
          exact hne (List.eq_nil_of_length_eq_zero
            (by rw [← hlen1, ← hlen2, hx2]; rfl))
    · rw [if_pos hc] at h
      cases h
      exact hne

theorem resolve_serv_halt_status {env : Env} {cb : Gaicb} {a d : Nat}
    {tr : List Event} (h : resolve_serv env cb a d = .halt tr) :
    ∀ s t r2, Event.cb s t r2 ∈ tr → s ≠ ARES_SUCCESS := by
  unfold resolve_serv at h
  cases hsp : setup_protocol cb.ar_result with
  | none =>
    simp only [hsp] at h
    cases h
    intro s t r2 hm
    simp at hm
    rcases hm with ⟨rfl, -, -⟩
    decide
  | some ns =>
    simp only [hsp] at h
    cases ns with
    | nil => cases h
    | cons n rest =>
      cases hsv : cb.ar_service with
      | none =>
        simp only [hsv] at h
        cases h
        intro s t r2 hm
        simp at hm
      | some s0 =>
        simp only [hsv] at h
        cases hss : serv_stamp env s0 (n :: rest) with
        | error e =>
          simp only [hss] at h
          cases h
          intro s t r2 hm
          simp at hm
          rcases hm with ⟨rfl, -, -⟩
          rcases serv_stamp_error hss with rfl | rfl | rfl <;> decide
        | ok ns2 => simp [hss] at h

theorem resolve_serv_result {env : Env} {cb : Gaicb} {a d : Nat}
    {cb2 : Gaicb} {a2 d2 : Nat}
    (h : resolve_serv env cb a d = .next cb2 a2 d2)
    (hne : cb.ar_result ≠ []) : cb2.ar_result ≠ [] := by
  unfold resolve_serv at h
  cases hsp : setup_protocol cb.ar_result with
  | none => simp only [hsp] at h; cases h
  | some ns =>
    simp only [hsp] at h
    have hlen1 : ns.length = cb.ar_result.length :=
      setup_protocol_length _ _ hsp
    cases ns with
    | nil =>
      exact absurd (List.eq_nil_of_length_eq_zero hlen1.symm) hne
    | cons n rest =>
      cases hsv : cb.ar_service with
      | none => simp only [hsv] at h; cases h
      | some s0 =>
        simp only [hsv] at h
        cases hss : serv_stamp env s0 (n :: rest) with
        | error e => simp [hss] at h
        | ok ns2 =>
          simp only [hss] at h
          cases h
          intro hx
          have hx2 : ns2 = [] := hx
          have := serv_stamp_ok_length hss
          rw [hx2] at this
          simp at this

theorem initState_pending (node service : Option String) (hints : Hints)
    (hfam : hints.ai_family = AF_UNSPEC ∨ hints.ai_family = AF_INET ∨
            hints.ai_family = AF_INET6) :
    ResultPending
      { ar_node := node, ar_service := service, ar_hints := hints,
        ar_result := [], ar_state := initState node service hints,
        ar_timeouts := 0 } := by
  intro _
  constructor
  · rcases hfam with hf | hf | hf <;>
      simp [initState, StateBits.anyHost, hf, AF_UNSPEC, AF_INET, AF_INET6]
  · cases node with
    | none => exact Or.inl rfl
    | some n =>
      refine Or.inr ⟨?_, ?_⟩
      · intro hx
        simp only [initState] at hx ⊢
        simpa using hx
      · intro hx
        simp only [initState] at hx ⊢
        simpa using hx

/-- Inside the dispatcher: under `GoodDns`, starting from a state
satisfying `ResultPending`, every SUCCESS callback carries a non-empty
result chain. -/
theorem nextState_success_nonempty (env : Env) (hdns : GoodDns env) :
    ∀ fuel (cb : Gaicb) (a d : Nat), ResultPending cb →
      ∀ s t r, Event.cb s t r ∈ nextState env fuel cb a d →
        s = ARES_SUCCESS → r ≠ [] := by
  intro fuel
  induction fuel with
  | zero =>
    intro cb a d _ s t r hm _
    simp [nextState] at hm
  | succ fuel ih =>
    intro cb a d hrp s t r hm hs
    rcases nextState_succ_cases env fuel cb a d with
      ⟨h, heq⟩ | ⟨h1, h, heq⟩ | ⟨h1, h2, h3, heq⟩ | ⟨h1, h2, h3, h, heq⟩ |
      ⟨h1, h2, h3, h4, h, heq⟩ | ⟨h1, h2, h3, h4, h5, h, heq⟩ |
      ⟨h1, h2, h3, h4, h5, h6, h, heq⟩ |
      ⟨h1, h2, h3, h4, h5, h6, h7, h8, heq⟩ |
      ⟨h1, h2, h3, h4, h5, h6, h7, h8, h, heq⟩ |
      ⟨h1, h2, h3, h4, h5, h6, h7, h8, h9, h10, heq⟩ |
      ⟨h1, h2, h3, h4, h5, h6, h7, h8, h9, h10, heq⟩
    · rw [heq] at hm
      rcases contStep_mem hm with hg | ⟨tr, hout, htr⟩ | ⟨cb2, a2, d2, hout, hrec⟩
      · simp at hg
      · exact absurd hs (try_pton_inet6_halt_status hout s t r htr)
      · refine ih cb2 a2 d2 ?_ s t r hrec hs
        rcases try_pton_inet6_next_c2 hout with ⟨rfl, s0, hn0⟩ | hne
        · intro hres
          obtain ⟨hany, himp⟩ := hrp (show cb.ar_result = [] from hres)
          rcases himp with hnone | ⟨hi4, hi6⟩
          · exact absurd (show cb.ar_node = some s0 from hn0)
              (by rw [hnone]; simp)
          · exact ⟨by simp [StateBits.anyHost, hi6 h],
                   Or.inr ⟨fun hx => hi4 hx, by simp⟩⟩
        · exact fun hx => absurd hx hne
    · rw [heq] at hm
      rcases contStep_mem hm with hg | ⟨tr, hout, htr⟩ | ⟨cb2, a2, d2, hout, hrec⟩
      · simp at hg
      · exact absurd hs (try_pton_inet_halt_status hout s t r htr)
      · refine ih cb2 a2 d2 ?_ s t r hrec hs
        rcases try_pton_inet_next_c2 hout with ⟨rfl, s0, hn0⟩ | hne
        · intro hres
          obtain ⟨hany, himp⟩ := hrp (show cb.ar_result = [] from hres)
          rcases himp with hnone | ⟨hi4, hi6⟩
          · exact absurd (show cb.ar_node = some s0 from hn0)
              (by rw [hnone]; simp)
          · exact ⟨by simp [StateBits.anyHost, hi4 h],
                   Or.inr ⟨by simp, fun hx => hi6 hx⟩⟩
        · exact fun hx => absurd hx hne
    · rw [heq] at hm
      simp at hm
      rcases hm with ⟨rfl, -, -⟩
      exact absurd hs (by decide)
    · rw [heq] at hm
      rcases contStep_mem hm with hg | ⟨tr, hout, htr⟩ | ⟨cb2, a2, d2, hout, hrec⟩
      · simp at hg
      · exact absurd hs (host_callback_halt_status hout s t r htr)
      · refine ih cb2 a2 d2 ?_ s t r hrec hs
        rcases host_callback_next_c2 hout with ⟨-, hstate, -, hany⟩ | ⟨h0, hsucc⟩
        · intro hres2
          refine ⟨?_, Or.inr ⟨?_, ?_⟩⟩
          · rw [hstate]; exact hany
          · rw [hstate]; simp [h2]
          · rw [hstate]; simp [h1]
        · exact fun hx => absurd hx (hsucc (hdns d h0))
    · rw [heq] at hm
      rcases contStep_mem hm with hg | ⟨tr, hout, htr⟩ | ⟨cb2, a2, d2, hout, hrec⟩
      · simp at hg
      · exact absurd hs (host_callback_halt_status hout s t r htr)
      · refine ih cb2 a2 d2 ?_ s t r hrec hs
        rcases host_callback_next_c2 hout with ⟨-, hstate, -, hany⟩ | ⟨h0, hsucc⟩
        · intro hres2
          refine ⟨?_, Or.inr ⟨?_, ?_⟩⟩
          · rw [hstate]; exact hany
          · rw [hstate]; simp [h2]
          · rw [hstate]; simp [h1]
        · exact fun hx => absurd hx (hsucc (hdns d h0))
    · rw [heq] at hm
      rcases contStep_mem hm with hg | ⟨tr, hout, htr⟩ | ⟨cb2, a2, d2, hout, hrec⟩
      · simp at hg
      · exact absurd hs (find_canonical_halt_status hout s t r htr)
      · refine ih cb2 a2 d2 ?_ s t r hrec hs
        have hne : cb.ar_result ≠ [] := by
          intro hx
          obtain ⟨hany, -⟩ := hrp hx
          simp [StateBits.anyHost, h1, h2, h4, h5] at hany
        intro hx
        rcases find_canonical_result hout with he2 | he2
        · exact absurd (he2.symm.trans hx) hne
        · exact absurd hx he2
    · rw [heq] at hm
      rcases contStep_mem hm with hg | ⟨tr, hout, htr⟩ | ⟨cb2, a2, d2, hout, hrec⟩
      · simp at hg
      · exact absurd hs (try_serv_strtol_halt_status hout s t r htr)
      · refine ih cb2 a2 d2 ?_ s t r hrec hs
        have hne : cb.ar_result ≠ [] := by
          intro hx
          obtain ⟨hany, -⟩ := hrp hx
          simp [StateBits.anyHost, h1, h2, h4, h5] at hany
        exact fun hx => absurd hx (try_serv_strtol_result hout hne)
    · rw [heq] at hm
      simp at hm
      rcases hm with ⟨rfl, -, -⟩
      exact absurd hs (by decide)
    · rw [heq] at hm
      rcases contStep_mem hm with hg | ⟨tr, hout, htr⟩ | ⟨cb2, a2, d2, hout, hrec⟩
      · simp at hg
      · exact absurd hs (resolve_serv_halt_status hout s t r htr)
      · refine ih cb2 a2 d2 ?_ s t r hrec hs
        have hne : cb.ar_result ≠ [] := by
          intro hx
          obtain ⟨hany, -⟩ := hrp hx
          simp [StateBits.anyHost, h1, h2, h4, h5] at hany
        exact fun hx => absurd hx (resolve_serv_result hout hne)
    · rw [heq] at hm
      simp at hm
      rcases hm with ⟨-, -, rfl⟩
      intro hx
      obtain ⟨hany, -⟩ := hrp hx
      rw [isEmpty_anyHost h10] at hany
      simp at hany
    · rw [heq] at hm
      simp at hm
      rcases hm with ⟨rfl, -, -⟩
      exact absurd hs (by decide)

/-- C2 (amended): whenever the user callback is invoked with status
SUCCESS, the result argument is a non-empty chain — *provided* every
successful DNS completion carries a hostent of a recognized family with a
non-empty address list (`GoodDns`).  The unconditional claim is false: a
successful completion with an empty `h_addr_list` prepends nothing, and
the terminal SUCCESS callback then passes the null chain
(`C2_counterexample`). -/
theorem C2_success_nonempty (env : Env) (chn : Bool)
    (node service : Option String) (hintsOpt : Option Hints)
    (hdns : GoodDns env) (s t : Nat) (r : List Node)
    (hm : Event.cb s t r ∈ ares_getaddrinfo env chn node service hintsOpt)
    (hs : s = ARES_SUCCESS) : r ≠ [] := by
  simp only [ares_getaddrinfo] at hm
  split at hm
  · simp at hm; rcases hm with ⟨rfl, -, -⟩; exact absurd hs (by decide)
  · split at hm
    · simp at hm; rcases hm with ⟨rfl, -, -⟩; exact absurd hs (by decide)
    · split at hm
      · simp at hm; rcases hm with ⟨rfl, -, -⟩; exact absurd hs (by decide)
      · split at hm
        · simp at hm; rcases hm with ⟨rfl, -, -⟩; exact absurd hs (by decide)
        · split at hm
          · rename_i hfam
            simp only [start] at hm
            split at hm
            · split at hm
              · simp at hm; rcases hm with ⟨rfl, -, -⟩
                exact absurd hs (by decide)
              · exact nextState_success_nonempty env hdns FUEL _ _ _
                  (initState_pending node service _ (by simpa [or_assoc] using hfam))
                  s t r hm hs
            · simp at hm; rcases hm with ⟨rfl, -, -⟩
              exact absurd hs (by decide)
          · simp at hm; rcases hm with ⟨rfl, -, -⟩; exact absurd hs (by decide)

/-- Witness for C2 at a concrete input: a good DNS environment whose
single reply holds the IPv4 loopback address; the SUCCESS callback's chain
is non-empty. -/
theorem C2_success_nonempty_witness :
    ([create_addrinfo_inet hintsInet INADDR_LOOPBACK_BE] : List Node) ≠ [] :=
  C2_success_nonempty envC3 false (some "x") none (some hintsInet)
    (fun i h => ⟨Or.inl rfl, by simp [envC3]⟩) ARES_SUCCESS 5
    [create_addrinfo_inet hintsInet INADDR_LOOPBACK_BE] (by decide) rfl

/-- C2 counterexample: a successful DNS completion whose hostent carries
an empty address list leads to the terminal SUCCESS callback passing the
empty (null) chain — the claim's universal form is false. -/
theorem C2_counterexample :
    Event.cb ARES_SUCCESS 0 [] ∈
      ares_getaddrinfo envC2 false (some "x") none (some hintsInet) ∧
    cbCount (ares_getaddrinfo envC2 false (some "x") none (some hintsInet)) =
      1 := by
  refine ⟨by decide, by decide⟩

end Ares
